import Mathlib

/-!
# Dashboard statistics of `routes/dashboard.js`

A shallow embedding of the statistics helpers of the dashboard router
(`getDashboardStats`, `getInfractionData`, the `/api/approve` handler) and the
properties of them that the specification states.

* JavaScript numbers are IEEE-754 binary64 values.  They are embedded as the
  rational numbers they denote, and every arithmetic operation of the source is
  followed by `toDouble`, the round-to-nearest, ties-to-even rounding to 53
  significant bits.  The exponent range is not bounded: no quantity of the
  program gets near the overflow or the subnormal range.
* The data store is a record of four tables (lists of rows).  A call of
  `db.execute` either throws or returns rows; which calls throw is given by a
  `Faults` record, so that the `try`/`catch` structure of the source is visible.
* The SQL text of every query is embedded as the list operation it denotes; the
  aggregates of the store (`COUNT`, `AVG`, `ROUND`) are exact.  Of the columns
  only `spots_tracked` is nullable.
* `UNIX_TIMESTAMP()` is the parameter `now`.

The definitions and the sample data come first, the rounding lemmas and the
structure of `getDashboardStats` next, then the properties of the specification.
-/

namespace Dashboard

/-! ## JavaScript numbers -/

/-- Nearest integer to `y`, a tie going to the even neighbour. -/
def roundHalfEven (y : ℚ) : ℤ :=
  let f := ⌊y⌋
  if y - f < 1 / 2 then f
  else if 1 / 2 < y - f then f + 1
  else if f % 2 = 0 then f else f + 1

/-- The binary64 value nearest to `x` (round to nearest, ties to even): `x` is
scaled by its unit in the last place so that the significand lies in
`[2^52, 2^53)`, rounded to an integer and scaled back. -/
def toDouble (x : ℚ) : ℚ :=
  if x = 0 then 0
  else
    let u : ℚ := 2 ^ (Int.log 2 |x| - 52)
    roundHalfEven (x / u) * u

/-- `Math.round`: the integer nearest to `x`, a tie going towards `+∞`. -/
def jsRound (x : ℚ) : ℤ := ⌊x + 1 / 2⌋

/-- `Math.round((a / b) * 100)` on two counts, as it appears twice in
`getDashboardStats`: a binary64 division, a binary64 multiplication, then
`Math.round`. Counts are integers below `2^53`, hence exact as doubles. -/
def roundedPercent (a b : ℕ) : ℤ :=
  jsRound (toDouble (toDouble ((a : ℚ) / (b : ℚ)) * 100))

/-- `Math.round(x * 100) / 100` for a number `x` delivered by the data store. -/
def roundTo2 (x : ℚ) : ℚ :=
  toDouble ((jsRound (toDouble (toDouble x * 100)) : ℚ) / 100)

/-! ## The data store -/

/-- A row of `locations`. -/
structure LocationRow where
  client_email : String
  location_id : ℕ
  deriving DecidableEq

/-- A row of `camera`; `spots_tracked` may be `NULL`. -/
structure CameraRow where
  camera_id : ℕ
  location_id : ℕ
  spots_tracked : Option String
  deriving DecidableEq

/-- A row of `car_detections`. Durations are whole seconds, the timestamp is in
epoch seconds. -/
structure CarDetection where
  car_id : ℕ
  camera_id : ℕ
  license_plate : String
  zone_ : ℕ
  duration : ℕ
  time_in_zone : ℕ
  infraction_occurred : Bool
  infraction_type : String
  approved : Bool
  timestamp_first_detected : ℤ
  deriving DecidableEq

/-- A row of `ppl_detections`. -/
structure PersonDetection where
  person_id : ℕ
  camera_id : ℕ
  timestamp_first_detected : ℤ
  deriving DecidableEq

/-- The four tables the router reads and writes. -/
structure Database where
  locations : List LocationRow
  camera : List CameraRow
  car_detections : List CarDetection
  ppl_detections : List PersonDetection
  deriving DecidableEq

/-- Which calls of `db.execute` throw, one flag for each call site of
`getDashboardStats` and `getInfractionData`. -/
structure Faults where
  location : Bool
  camera : Bool
  footTraffic : Bool
  avgStay : Bool
  spotsUsed : Bool
  infractionCount : Bool
  infractionRows : Bool
  deriving DecidableEq

/-- Every query succeeds. -/
def noFaults : Faults :=
  ⟨false, false, false, false, false, false, false⟩

/-- One call of `db.execute`: it throws when its flag is set, else it yields the
rows of the query. -/
def execute {α : Type} (fails : Bool) (rows : α) : Except String α :=
  if fails then .error "query failed" else .ok rows

/-- The condition `timestamp_first_detected > UNIX_TIMESTAMP() - 3600 * ?` shared
by all windowed queries. -/
def inWindow (now pastHours t : ℤ) : Bool :=
  decide (t > now - 3600 * pastHours)

/-- `SELECT location_id FROM locations WHERE client_email = ? LIMIT 1`. -/
def selectLocation (db : Database) (email : String) : List LocationRow :=
  (db.locations.filter fun l => l.client_email = email).take 1

/-- `SELECT camera_id, spots_tracked FROM camera WHERE location_id = ? LIMIT 1`. -/
def selectCamera (db : Database) (locationId : ℕ) : List CameraRow :=
  (db.camera.filter fun c => c.location_id = locationId).take 1

/-- `SELECT COUNT(DISTINCT person_id) FROM ppl_detections WHERE camera_id = ? AND
timestamp_first_detected > UNIX_TIMESTAMP() - 3600 * ?`. -/
def selectFootTraffic (db : Database) (cameraId : ℕ) (now pastHours : ℤ) : ℕ :=
  (((db.ppl_detections.filter fun p =>
      p.camera_id = cameraId && inWindow now pastHours p.timestamp_first_detected).map
    fun p => p.person_id).dedup).length

/-- The rows of `car_detections` selected by `WHERE camera_id = ? AND
timestamp_first_detected > UNIX_TIMESTAMP() - 3600 * ?`. -/
def carsInWindow (db : Database) (cameraId : ℕ) (now pastHours : ℤ) : List CarDetection :=
  db.car_detections.filter fun c =>
    c.camera_id = cameraId && inWindow now pastHours c.timestamp_first_detected

/-- The `duration` column of the rows of the window, in seconds. -/
def windowDurations (db : Database) (cameraId : ℕ) (now pastHours : ℤ) : List ℕ :=
  (carsInWindow db cameraId now pastHours).map fun c => c.duration

/-- `SELECT AVG(duration) / 60 FROM car_detections WHERE ...`: `NULL` (`none`) when
no row is selected, else the mean duration divided by 60. The arithmetic of the
data store is taken to be exact. -/
def selectAvgStay (db : Database) (cameraId : ℕ) (now pastHours : ℤ) : Option ℚ :=
  let ds : List ℕ := windowDurations db cameraId now pastHours
  if ds = [] then none else some ((((ds.sum : ℕ) : ℚ) / ((ds.length : ℕ) : ℚ)) / 60)

/-- `SELECT COUNT(DISTINCT zone_) FROM car_detections WHERE ...`. -/
def selectSpotsUsed (db : Database) (cameraId : ℕ) (now pastHours : ℤ) : ℕ :=
  (((carsInWindow db cameraId now pastHours).map fun c => c.zone_).dedup).length

/-- The rows selected by `WHERE camera_id = ? AND timestamp_first_detected >
UNIX_TIMESTAMP() - 3600 * ? AND infraction_occurred = 1 AND approved = 0`. -/
def openInfractions (db : Database) (cameraId : ℕ) (now pastHours : ℤ) : List CarDetection :=
  db.car_detections.filter fun c =>
    c.camera_id = cameraId && inWindow now pastHours c.timestamp_first_detected
      && c.infraction_occurred && !c.approved

/-- `SELECT COUNT(*) FROM car_detections WHERE ... AND infraction_occurred = 1 AND
approved = 0`. -/
def selectInfractionCount (db : Database) (cameraId : ℕ) (now pastHours : ℤ) : ℕ :=
  (openInfractions db cameraId now pastHours).length

/-! ## The statistics record -/

/-- The field `parkingUtilization`. -/
structure ParkingUtilization where
  used : ℕ
  available : ℤ
  percentage : ℤ
  deriving DecidableEq

/-- The field `averageStayTime`. -/
structure AverageStayTime where
  cars : ℚ
  people : ℚ
  deriving DecidableEq

/-- The field `infringements`. -/
structure Infringements where
  count : ℕ
  rate : ℤ
  deriving DecidableEq

/-- The object returned by `getDashboardStats`. -/
structure DashboardStats where
  parkingUtilization : ParkingUtilization
  averageStayTime : AverageStayTime
  footTraffic : ℕ
  infringements : Infringements
  totalSpots : ℕ
  deriving DecidableEq

/-- The initial value of `stats`: every field zero. -/
def defaultStats : DashboardStats :=
  { parkingUtilization := { used := 0, available := 0, percentage := 0 }
    averageStayTime := { cars := 0, people := 0 }
    footTraffic := 0
    infringements := { count := 0, rate := 0 }
    totalSpots := 0 }

/-- The length of `s.match(/name/g)`: the scan goes left to right, and after a
match it resumes behind the matched text. -/
def countNameMatches : List Char → ℕ
  | [] => 0
  | 'n' :: 'a' :: 'm' :: 'e' :: rest => countNameMatches rest + 1
  | _ :: rest => countNameMatches rest

/-- The value of `totalSpots` computed from `spots_tracked`: zero for a falsy
value (`NULL` or the empty string), else the number of matches of `/name/g`. -/
def totalSpotsOf (spotsTracked : Option String) : ℕ :=
  match spotsTracked with
  | none => 0
  | some s => if s = "" then 0 else countNameMatches s.toList

/-- The foot-traffic block: its own `try`/`catch`, the failure is logged only. -/
def footTrafficStep (db : Database) (f : Faults) (cameraId : ℕ) (now pastHours : ℤ)
    (stats : DashboardStats) : DashboardStats :=
  match execute f.footTraffic (selectFootTraffic db cameraId now pastHours) with
  | .ok n => { stats with footTraffic := n }
  | .error _ => stats

/-- The assignment of `averageStayTime.cars`, made when the average is truthy:
not `NULL` and not the number 0. (Where the driver delivers the average as text,
a zero is truthy; the value assigned is then 0 as well.) The number `x` of the
store becomes a double when JavaScript computes with it. -/
def avgStayStep (avg : Option ℚ) (stats : DashboardStats) : DashboardStats :=
  match avg with
  | none => stats
  | some x =>
    if x = 0 then stats
    else { stats with averageStayTime := { stats.averageStayTime with cars := roundTo2 x } }

/-- The parking-utilization block: its own `try`/`catch`. -/
def parkingStep (db : Database) (f : Faults) (cameraId : ℕ) (spotsTracked : Option String)
    (now pastHours : ℤ) (stats : DashboardStats) : DashboardStats :=
  match execute f.spotsUsed (selectSpotsUsed db cameraId now pastHours) with
  | .error _ => stats
  | .ok spotsUsed =>
    let totalSpots := totalSpotsOf spotsTracked
    let stats := { stats with totalSpots := totalSpots }
    if totalSpots > 0 then
      { stats with
        parkingUtilization :=
          { used := spotsUsed
            available := (totalSpots : ℤ) - (spotsUsed : ℤ)
            percentage := roundedPercent spotsUsed totalSpots } }
    else stats

/-- The assignment of `infringements` from the counted rows. -/
def infringementStep (count : ℕ) (stats : DashboardStats) : DashboardStats :=
  let totalDetections := stats.parkingUtilization.used + count
  { stats with
    infringements :=
      { count := count
        rate := if totalDetections > 0 then roundedPercent count totalDetections else 0 } }

/-- The function `getDashboardStats(email, pastHours)`. A throwing query outside
the two inner `try` blocks leaves through the outer `catch`, which returns `stats`
as far as it has been filled. -/
def getDashboardStats (db : Database) (f : Faults) (now : ℤ) (email : String)
    (pastHours : ℤ) : DashboardStats :=
  let stats := defaultStats
  match execute f.location (selectLocation db email) with
  | .error _ => stats
  | .ok [] => stats
  | .ok (locationRow :: _) =>
    match execute f.camera (selectCamera db locationRow.location_id) with
    | .error _ => stats
    | .ok [] => stats
    | .ok (cameraRow :: _) =>
      let cameraId := cameraRow.camera_id
      let stats := footTrafficStep db f cameraId now pastHours stats
      match execute f.avgStay (selectAvgStay db cameraId now pastHours) with
      | .error _ => stats
      | .ok avg =>
        let stats := avgStayStep avg stats
        let stats := parkingStep db f cameraId cameraRow.spots_tracked now pastHours stats
        match execute f.infractionCount (selectInfractionCount db cameraId now pastHours) with
        | .error _ => stats
        | .ok count => infringementStep count stats

/-! ## The infraction table -/

/-- A row of the result of `getInfractionData`; `detection_time` is the timestamp
`FROM_UNIXTIME` denotes, kept in epoch seconds. -/
structure InfractionRow where
  car_id : ℕ
  license_plate : String
  dur_in_minutes : ℚ
  parking_spot : ℕ
  minutes_parked : ℚ
  infraction_type : String
  detection_time : ℤ
  deriving DecidableEq

/-- SQL `ROUND(seconds / 60, 2)` on a non-negative whole number of seconds. -/
def sqlMinutes (seconds : ℕ) : ℚ :=
  (⌊(seconds : ℚ) / 60 * 100 + 1 / 2⌋ : ℚ) / 100

/-- The select list of the infraction query. -/
def toInfractionRow (c : CarDetection) : InfractionRow :=
  { car_id := c.car_id
    license_plate := c.license_plate
    dur_in_minutes := sqlMinutes c.duration
    parking_spot := c.zone_
    minutes_parked := sqlMinutes c.time_in_zone
    infraction_type := c.infraction_type
    detection_time := c.timestamp_first_detected }

/-- The order of `ORDER BY timestamp_first_detected DESC`. -/
def laterFirst (a b : CarDetection) : Prop :=
  b.timestamp_first_detected ≤ a.timestamp_first_detected

instance : DecidableRel laterFirst :=
  fun a b => inferInstanceAs (Decidable (b.timestamp_first_detected ≤ a.timestamp_first_detected))

/-- The infraction query: the open infractions of the window, latest first, the
first 50 of them. SQL leaves the order of rows of equal timestamp open; here they
keep their table order. -/
def selectInfractionRows (db : Database) (cameraId : ℕ) (now pastHours : ℤ) :
    List InfractionRow :=
  (((openInfractions db cameraId now pastHours).insertionSort laterFirst).take 50).map
    toInfractionRow

/-- The function `getInfractionData(email, pastHours)`: any throwing query ends in
the `catch`, which returns the empty list. -/
def getInfractionData (db : Database) (f : Faults) (now : ℤ) (email : String)
    (pastHours : ℤ) : List InfractionRow :=
  match execute f.location (selectLocation db email) with
  | .error _ => []
  | .ok [] => []
  | .ok (locationRow :: _) =>
    match execute f.camera (selectCamera db locationRow.location_id) with
    | .error _ => []
    | .ok [] => []
    | .ok (cameraRow :: _) =>
      match execute f.infractionRows
          (selectInfractionRows db cameraRow.camera_id now pastHours) with
      | .error _ => []
      | .ok rows => rows

/-! ## The approval action -/

/-- `UPDATE car_detections SET approved = 1 WHERE car_id = ?`. -/
def updateApproved (db : Database) (carId : ℕ) : Database :=
  { db with
    car_detections :=
      db.car_detections.map fun c => if c.car_id = carId then { c with approved := true } else c }

/-- The handler of `POST /api/approve`: the HTTP status and the store afterwards.
`car_id` is the field of the request body, `none` when it is absent; a falsy
value (absent or `0`) is answered with 400, a throwing update with 500. -/
def approve (db : Database) (updateFails : Bool) (car_id : Option ℕ) : ℕ × Database :=
  match car_id with
  | none => (400, db)
  | some carId =>
    if carId = 0 then (400, db)
    else
      match execute updateFails (updateApproved db carId) with
      | .error _ => (500, db)
      | .ok db' => (200, db')

/-- The relations between the fields of a statistics record that every run of
`getDashboardStats` establishes. -/
def Coherent (s : DashboardStats) : Prop :=
  (s.parkingUtilization = ⟨0, 0, 0⟩ ∨
    (0 < s.totalSpots ∧
      s.parkingUtilization.available = (s.totalSpots : ℤ) - (s.parkingUtilization.used : ℤ) ∧
      s.parkingUtilization.percentage =
        roundedPercent s.parkingUtilization.used s.totalSpots)) ∧
  s.infringements.rate =
    if 0 < s.parkingUtilization.used + s.infringements.count then
      roundedPercent s.infringements.count (s.parkingUtilization.used + s.infringements.count)
    else 0


/-! ## Notions of the specification -/

/-- The rounding the specification writes, `round(a / b * 100)` with ties rounded
up, computed in exact arithmetic. -/
def exactRoundedPercent (a b : ℕ) : ℤ :=
  ⌊(a : ℚ) / (b : ℚ) * 100 + 1 / 2⌋

/-- The exact value `100 * a / b` lies halfway between two integers. -/
def HalfwayPercent (a b : ℕ) : Prop :=
  2 * b ∣ 200 * a + b

instance (a b : ℕ) : Decidable (HalfwayPercent a b) :=
  inferInstanceAs (Decidable (2 * b ∣ 200 * a + b))

/-- The number of occurrences of the marker token `name` in a text: the number
of positions at which the text reads `name`. -/
def nameOccurrences (text : List Char) : ℕ :=
  text.tails.countP fun t => t.take 4 = ['n', 'a', 'm', 'e']

/-- The number of marker tokens of a spots-tracked descriptor, an absent
descriptor having none. -/
def descriptorOccurrences (descriptor : Option String) : ℕ :=
  match descriptor with
  | none => 0
  | some s => nameOccurrences s.toList

instance : IsTotal CarDetection laterFirst :=
  ⟨fun a b => le_total b.timestamp_first_detected a.timestamp_first_detected⟩

instance : IsTrans CarDetection laterFirst :=
  ⟨fun _ _ _ hab hbc => le_trans hbc hab⟩

/-! ## Sample data -/

/-- A descriptor naming `n` spots. -/
def sampleDescriptor (n : ℕ) : String :=
  String.join (List.replicate n "[name:spot]")

/-- The time of the sample queries, in epoch seconds. -/
def sampleNow : ℤ := 1700000000

/-- A list of `n` cars seen by camera 7 in the last minutes before `sampleNow`,
car `i` in zone `i` for `60 * i` seconds; the first `k` of them are infractions
that are not approved. -/
def sampleCars (n k : ℕ) : List CarDetection :=
  (List.range n).map fun i =>
    { car_id := i + 1
      camera_id := 7
      license_plate := "LOT" ++ toString (i + 1)
      zone_ := i + 1
      duration := 60 * (i + 1)
      time_in_zone := 60 * (i + 1)
      infraction_occurred := decide (i < k)
      infraction_type := if i < k then "overstay" else ""
      approved := false
      timestamp_first_detected := sampleNow - 600 + i }

/-- A store with one location, its camera tracking `spots` spots, and the given
car detections. -/
def sampleLot (spots : ℕ) (cars : List CarDetection) : Database :=
  { locations := [⟨"ops@lot.example", 1⟩]
    camera := [⟨7, 1, some (sampleDescriptor spots)⟩]
    car_detections := cars
    ppl_detections := [⟨1, 7, sampleNow - 60⟩, ⟨1, 7, sampleNow - 30⟩, ⟨2, 7, sampleNow - 10⟩] }

/-- A list of 23 infractions that are not approved, in 17 zones. -/
def crowdedCars : List CarDetection :=
  (List.range 23).map fun i =>
    { car_id := i + 1
      camera_id := 7
      license_plate := "LOT" ++ toString (i + 1)
      zone_ := i % 17 + 1
      duration := 600
      time_in_zone := 600
      infraction_occurred := true
      infraction_type := "overstay"
      approved := false
      timestamp_first_detected := sampleNow - 600 + i }

/-- Two cars that stayed 34 and 35 seconds. -/
def shortStays : List CarDetection :=
  [ { car_id := 1, camera_id := 7, license_plate := "STAY1", zone_ := 1, duration := 34
      time_in_zone := 34, infraction_occurred := false, infraction_type := ""
      approved := false, timestamp_first_detected := sampleNow - 120 },
    { car_id := 2, camera_id := 7, license_plate := "STAY2", zone_ := 2, duration := 35
      time_in_zone := 35, infraction_occurred := false, infraction_type := ""
      approved := false, timestamp_first_detected := sampleNow - 60 } ]

/-- Two infractions that are not approved: one first detected exactly one hour
before `sampleNow`, one a minute after `sampleNow`. -/
def boundaryCars : List CarDetection :=
  [ { car_id := 1, camera_id := 7, license_plate := "EDGE1", zone_ := 1, duration := 120
      time_in_zone := 120, infraction_occurred := true, infraction_type := "overstay"
      approved := false, timestamp_first_detected := sampleNow - 3600 },
    { car_id := 2, camera_id := 7, license_plate := "EDGE2", zone_ := 2, duration := 120
      time_in_zone := 120, infraction_occurred := true, infraction_type := "overstay"
      approved := false, timestamp_first_detected := sampleNow + 60 } ]

/-- A store whose only car detection has `car_id = 0` and is an infraction that
is not approved. -/
def carZeroLot : Database :=
  sampleLot 10
    [ { car_id := 0, camera_id := 7, license_plate := "ZERO0", zone_ := 1, duration := 120
        time_in_zone := 120, infraction_occurred := true, infraction_type := "overstay"
        approved := false, timestamp_first_detected := sampleNow - 60 } ]

/-! ## Rounding lemmas -/

theorem roundHalfEven_abs_sub_le (y : ℚ) : |(roundHalfEven y : ℚ) - y| ≤ 1 / 2 := by
  have h1 := Int.floor_le y
  have h2 := Int.lt_floor_add_one y
  unfold roundHalfEven
  simp only
  rw [abs_le]
  split_ifs with ha hb hc
  · constructor <;> linarith
  · push_cast; constructor <;> linarith
  · constructor <;> linarith
  · push_cast; constructor <;> linarith

theorem roundHalfEven_le_of_le {y : ℚ} {n : ℤ} (h : y ≤ n) : roundHalfEven y ≤ n := by
  have h1 := Int.floor_le y
  have hf : ⌊y⌋ ≤ n := by exact_mod_cast h1.trans h
  unfold roundHalfEven
  simp only
  have key : ¬ (y - ⌊y⌋ < 1 / 2) → ⌊y⌋ + 1 ≤ n := by
    intro hh
    have : (⌊y⌋ : ℚ) < n := by linarith
    have : ⌊y⌋ < n := by exact_mod_cast this
    omega
  split_ifs with ha hb hc
  · exact hf
  · exact key ha
  · exact hf
  · exact key ha

theorem le_roundHalfEven_of_le {y : ℚ} {n : ℤ} (h : (n : ℚ) ≤ y) : n ≤ roundHalfEven y := by
  have hf : n ≤ ⌊y⌋ := Int.le_floor.mpr h
  unfold roundHalfEven
  simp only
  split_ifs <;> omega

theorem roundHalfEven_eq_of_abs_lt {y : ℚ} {m : ℤ} (h : |y - m| < 1 / 2) :
    roundHalfEven y = m := by
  have h1 := roundHalfEven_abs_sub_le y
  rw [abs_le] at h1
  rw [abs_lt] at h
  have h2 : ((roundHalfEven y : ℤ) : ℚ) < ((m + 1 : ℤ) : ℚ) := by push_cast; linarith
  have h3 : ((m - 1 : ℤ) : ℚ) < ((roundHalfEven y : ℤ) : ℚ) := by push_cast; linarith
  have h2' := Int.cast_lt.mp h2
  have h3' := Int.cast_lt.mp h3
  omega

theorem binade_bounds {x : ℚ} (hx : 0 < x) :
    (2 : ℚ) ^ Int.log 2 x ≤ x ∧ x < (2 : ℚ) ^ (Int.log 2 x + 1) := by
  have h1 := Int.zpow_log_le_self (R := ℚ) (b := 2) (by norm_num) hx
  have h2 := Int.lt_zpow_succ_log_self (R := ℚ) (b := 2) (by norm_num) x
  simpa using And.intro h1 h2

theorem binade_eq {x : ℚ} {e : ℤ} (hx : 0 < x) (h1 : (2 : ℚ) ^ e ≤ x) (h2 : x < (2 : ℚ) ^ (e + 1)) :
    Int.log 2 x = e := by
  have a := (Int.zpow_le_iff_le_log (R := ℚ) (b := 2) (by norm_num) (x := e) hx).mp (by simpa using h1)
  have b := (Int.lt_zpow_iff_log_lt (R := ℚ) (b := 2) (by norm_num) (x := e + 1) hx).mp (by simpa using h2)
  omega

theorem toDouble_of_pos {x : ℚ} (hx : 0 < x) :
    toDouble x = roundHalfEven (x / 2 ^ (Int.log 2 x - 52)) * 2 ^ (Int.log 2 x - 52) := by
  unfold toDouble
  rw [if_neg hx.ne', abs_of_pos hx]

theorem toDouble_zero : toDouble 0 = 0 := by simp [toDouble]

theorem scaled_bounds {x : ℚ} (hx : 0 < x) :
    (2 : ℚ) ^ (52 : ℤ) ≤ x / 2 ^ (Int.log 2 x - 52) ∧ x / 2 ^ (Int.log 2 x - 52) < (2 : ℚ) ^ (53 : ℤ) := by
  obtain ⟨h1, h2⟩ := binade_bounds hx
  have hu : (0 : ℚ) < 2 ^ (Int.log 2 x - 52) := by positivity
  constructor
  · rw [le_div_iff₀ hu, ← zpow_add₀ (by norm_num : (2 : ℚ) ≠ 0)]
    simpa using h1
  · rw [div_lt_iff₀ hu, ← zpow_add₀ (by norm_num : (2 : ℚ) ≠ 0)]
    have : (53 : ℤ) + (Int.log 2 x - 52) = Int.log 2 x + 1 := by ring
    rw [this]; exact h2

theorem toDouble_nonneg {x : ℚ} (hx : 0 ≤ x) : 0 ≤ toDouble x := by
  rcases hx.eq_or_lt with h | h
  · rw [← h, toDouble_zero]
  · rw [toDouble_of_pos h]
    have hu : (0 : ℚ) < 2 ^ (Int.log 2 x - 52) := by positivity
    have : (0 : ℤ) ≤ roundHalfEven (x / 2 ^ (Int.log 2 x - 52)) :=
      le_roundHalfEven_of_le (by simpa using (div_pos h hu).le)
    have : (0 : ℚ) ≤ (roundHalfEven (x / 2 ^ (Int.log 2 x - 52)) : ℚ) := by exact_mod_cast this
    positivity

theorem toDouble_abs_sub_le {x : ℚ} (hx : 0 ≤ x) : |toDouble x - x| ≤ x / 2 ^ 53 := by
  rcases hx.eq_or_lt with h | h
  · rw [← h, toDouble_zero]; simp
  · rw [toDouble_of_pos h]
    set u : ℚ := 2 ^ (Int.log 2 x - 52) with hu_def
    have hu : (0 : ℚ) < u := by positivity
    have h1 := roundHalfEven_abs_sub_le (x / u)
    have h2 : (roundHalfEven (x / u) : ℚ) * u - x = ((roundHalfEven (x / u) : ℚ) - x / u) * u := by
      field_simp
    rw [h2, abs_mul, abs_of_pos hu]
    have h3 : u * 2 ^ 52 ≤ x := by
      have := (scaled_bounds h).1
      rw [le_div_iff₀ hu] at this
      have e : ((2 : ℚ) ^ (52 : ℤ)) = 2 ^ 52 := by norm_num
      rw [e] at this
      linarith
    calc |(roundHalfEven (x / u) : ℚ) - x / u| * u ≤ 1 / 2 * u := by
          exact mul_le_mul_of_nonneg_right h1 hu.le
      _ = (u * 2 ^ 52) / 2 ^ 53 := by ring
      _ ≤ x / 2 ^ 53 := by
          apply div_le_div_of_nonneg_right h3 (by positivity)

theorem toDouble_le_natCast {x : ℚ} {N : ℕ} (hx : 0 ≤ x) (h : x ≤ N) (hN : N < 2 ^ 53) :
    toDouble x ≤ N := by
  rcases hx.eq_or_lt with h0 | h0
  · rw [← h0, toDouble_zero]; positivity
  · rw [toDouble_of_pos h0]
    set e := Int.log 2 x with he
    have hu : (0 : ℚ) < 2 ^ (e - 52) := by positivity
    obtain ⟨hb1, _⟩ := binade_bounds h0
    have hle : e ≤ 52 := by
      by_contra hc
      push_neg at hc
      have h53 : (2 : ℚ) ^ (53 : ℤ) ≤ 2 ^ e := zpow_le_zpow_right₀ (by norm_num) (by omega)
      have hN' : (N : ℚ) < 2 ^ 53 := by exact_mod_cast hN
      have e53 : ((2 : ℚ) ^ (53 : ℤ)) = 2 ^ 53 := by norm_num
      rw [e53] at h53
      linarith
    obtain ⟨k, hk⟩ : ∃ k : ℕ, (52 : ℤ) - e = k := ⟨(52 - e).toNat, by omega⟩
    have hdiv : (N : ℚ) / 2 ^ (e - 52) = ((N * 2 ^ k : ℕ) : ℤ) := by
      have : e - 52 = -(k : ℤ) := by omega
      rw [this, zpow_neg, zpow_natCast]
      push_cast
      field_simp
    have hr : roundHalfEven (x / 2 ^ (e - 52)) ≤ ((N * 2 ^ k : ℕ) : ℤ) := by
      apply roundHalfEven_le_of_le
      rw [← hdiv]
      exact div_le_div_of_nonneg_right h hu.le
    have hr' : (roundHalfEven (x / 2 ^ (e - 52)) : ℚ) ≤ (N : ℚ) / 2 ^ (e - 52) := by
      rw [hdiv]; exact_mod_cast hr
    calc (roundHalfEven (x / 2 ^ (e - 52)) : ℚ) * 2 ^ (e - 52)
        ≤ (N : ℚ) / 2 ^ (e - 52) * 2 ^ (e - 52) := mul_le_mul_of_nonneg_right hr' hu.le
      _ = N := by field_simp

theorem toDouble_eq_of_bounds {x : ℚ} (e m : ℤ) (hx : 0 < x) (h1 : (2 : ℚ) ^ e ≤ x)
    (h2 : x < (2 : ℚ) ^ (e + 1)) (h3 : |x / 2 ^ (e - 52) - m| < 1 / 2) :
    toDouble x = m * 2 ^ (e - 52) := by
  rw [toDouble_of_pos hx, binade_eq hx h1 h2, roundHalfEven_eq_of_abs_lt h3]


theorem jsRound_nonneg {x : ℚ} (hx : 0 ≤ x) : 0 ≤ jsRound x := by
  unfold jsRound
  exact Int.floor_nonneg.mpr (by linarith)

theorem jsRound_le_of_le {x : ℚ} {n : ℤ} (h : x ≤ n) : jsRound x ≤ n := by
  unfold jsRound
  have : ⌊x + 1 / 2⌋ < n + 1 := by
    rw [Int.floor_lt]
    push_cast
    linarith
  omega

theorem jsRound_of_near {P Q : ℕ} (hQ : 0 < Q) {y : ℚ}
    (h : |y - (P : ℚ) / (Q : ℚ)| < 1 / (2 * (Q : ℚ))) :
    |(jsRound y : ℚ) - (P : ℚ) / (Q : ℚ)| ≤ 1 / 2 ∧
      (¬ (2 * Q ∣ 2 * P + Q) → jsRound y = ((2 * P + Q) / (2 * Q) : ℕ)) := by
  have hQ' : (0 : ℚ) < Q := by exact_mod_cast hQ
  obtain ⟨hlo, hhi⟩ := abs_lt.mp h
  have h1 : ((jsRound y : ℤ) : ℚ) ≤ y + 1 / 2 := Int.floor_le _
  have h2 : y + 1 / 2 < ((jsRound y : ℤ) : ℚ) + 1 := Int.lt_floor_add_one _
  set K := jsRound y with hK
  -- clear denominators
  have hy1 : y * (2 * Q) < 2 * P + 1 := by
    have : y < (P : ℚ) / Q + 1 / (2 * Q) := by linarith
    calc y * (2 * Q) < ((P : ℚ) / Q + 1 / (2 * Q)) * (2 * Q) :=
          mul_lt_mul_of_pos_right this (by positivity)
      _ = 2 * P + 1 := by field_simp; ring
  have hy2 : (2 * P : ℚ) - 1 < y * (2 * Q) := by
    have : (P : ℚ) / Q - 1 / (2 * Q) < y := by linarith
    calc (2 * P : ℚ) - 1 = ((P : ℚ) / Q - 1 / (2 * Q)) * (2 * Q) := by field_simp; ring
      _ < y * (2 * Q) := mul_lt_mul_of_pos_right this (by positivity)
  have a1 : (K : ℚ) * (2 * Q) < 2 * P + Q + 1 := by nlinarith
  have a2 : (2 * P : ℚ) + Q - 1 < (K : ℚ) * (2 * Q) + 2 * Q := by nlinarith
  have b1 : K * (2 * Q) < 2 * P + Q + 1 := by exact_mod_cast a1
  have b2 : (2 * P : ℤ) + Q - 1 < K * (2 * Q) + 2 * Q := by exact_mod_cast a2
  have c1 : K * (2 * Q) ≤ 2 * P + Q := by omega
  have c2 : (2 * P : ℤ) + Q ≤ K * (2 * Q) + 2 * Q := by omega
  have c1' : (K : ℚ) * (2 * Q) ≤ 2 * P + Q := by exact_mod_cast c1
  have c2' : (2 * P : ℚ) + Q ≤ (K : ℚ) * (2 * Q) + 2 * Q := by exact_mod_cast c2
  refine ⟨?_, ?_⟩
  · have u1 : (P : ℚ) / Q ≤ K + 1 / 2 := by
      rw [div_le_iff₀ hQ']
      nlinarith
    have u2 : (K : ℚ) - 1 / 2 ≤ (P : ℚ) / Q := by
      rw [le_div_iff₀ hQ']
      nlinarith
    rw [abs_le]
    constructor <;> linarith
  · intro hnd
    have c3 : (2 * P : ℤ) + Q < K * (2 * Q) + 2 * Q := by
      rcases c2.eq_or_lt with he | hl
      · exfalso
        apply hnd
        have : ((2 * P + Q : ℕ) : ℤ) = (2 * Q : ℕ) * (K + 1) := by push_cast; linarith
        have hd : ((2 * Q : ℕ) : ℤ) ∣ ((2 * P + Q : ℕ) : ℤ) := ⟨K + 1, this⟩
        exact Int.natCast_dvd_natCast.mp hd
      · exact hl
    have hK0 : 0 ≤ K := by
      by_contra hneg
      push_neg at hneg
      have : K + 1 ≤ 0 := by omega
      have : (K + 1) * (2 * (Q : ℤ)) ≤ 0 := mul_nonpos_of_nonpos_of_nonneg this (by positivity)
      have hP : (0 : ℤ) ≤ 2 * P + Q := by positivity
      have hQz : (0 : ℤ) < Q := by exact_mod_cast hQ
      nlinarith
    obtain ⟨k, hk⟩ := Int.eq_ofNat_of_zero_le hK0
    rw [hk] at c1 c3 ⊢
    have d1 : k * (2 * Q) ≤ 2 * P + Q := by exact_mod_cast c1
    have d3 : 2 * P + Q < (k + 1) * (2 * Q) := by
      have : (2 * P : ℤ) + Q < (k + 1) * (2 * Q) := by linarith
      exact_mod_cast this
    rw [Nat.div_eq_of_lt_le d1 d3]

theorem doubleProduct_near {x : ℚ} (hx : 0 ≤ x) :
    |toDouble (toDouble x * 100) - 100 * x| ≤ 300 * x / 2 ^ 53 := by
  have h1 := toDouble_abs_sub_le hx
  have hd : 0 ≤ toDouble x := toDouble_nonneg hx
  have h2 := toDouble_abs_sub_le (mul_nonneg hd (by norm_num : (0 : ℚ) ≤ 100))
  rw [abs_le] at h1 h2 ⊢
  have hx53 : x / 2 ^ 53 ≤ x := div_le_self hx (by norm_num)
  have e1 : toDouble x * 100 / 2 ^ 53 = 100 * (toDouble x / 2 ^ 53) := by ring
  have e2 : 300 * x / 2 ^ 53 = 300 * (x / 2 ^ 53) := by ring
  have hd2 : toDouble x / 2 ^ 53 ≤ 2 * (x / 2 ^ 53) := by
    rw [div_le_iff₀ (by positivity)]
    have : 2 * (x / 2 ^ 53) * 2 ^ 53 = 2 * x := by field_simp
    rw [this]; linarith
  rw [e1] at h2
  rw [e2]
  constructor <;> linarith

theorem roundedPercent_nonneg (a b : ℕ) : 0 ≤ roundedPercent a b := by
  unfold roundedPercent
  apply jsRound_nonneg
  apply toDouble_nonneg
  exact mul_nonneg (toDouble_nonneg (by positivity)) (by norm_num)

theorem roundedPercent_le_hundred {a b : ℕ} (h : a ≤ b) : roundedPercent a b ≤ 100 := by
  unfold roundedPercent
  have hx : (0 : ℚ) ≤ (a : ℚ) / b := by positivity
  have hx1 : (a : ℚ) / b ≤ ((1 : ℕ) : ℚ) := by
    push_cast
    apply div_le_one_of_le₀ (by exact_mod_cast h) (by positivity)
  have h1 : toDouble ((a : ℚ) / b) ≤ ((1 : ℕ) : ℚ) := toDouble_le_natCast hx hx1 (by norm_num)
  have h0 : 0 ≤ toDouble ((a : ℚ) / b) := toDouble_nonneg hx
  have h2 : toDouble (toDouble ((a : ℚ) / b) * 100) ≤ ((100 : ℕ) : ℚ) := by
    apply toDouble_le_natCast (mul_nonneg h0 (by norm_num)) _ (by norm_num)
    push_cast at h1 ⊢
    linarith
  apply jsRound_le_of_le
  push_cast at h2 ⊢
  exact h2

theorem roundedPercent_zero_left (b : ℕ) : roundedPercent 0 b = 0 := by
  simp [roundedPercent, toDouble_zero, jsRound]
  norm_num

theorem roundedPercent_near {a b : ℕ} (hb : 0 < b) (ha : a < 2 ^ 43) :
    |(roundedPercent a b : ℚ) - 100 * (a : ℚ) / (b : ℚ)| ≤ 1 / 2 ∧
      (¬ (2 * b ∣ 200 * a + b) → roundedPercent a b = ((200 * a + b) / (2 * b) : ℕ)) := by
  have hb' : (0 : ℚ) < b := by exact_mod_cast hb
  have hx : (0 : ℚ) ≤ (a : ℚ) / b := by positivity
  have hnear := doubleProduct_near hx
  have ha' : (a : ℚ) < 2 ^ 43 := by exact_mod_cast ha
  have hlt : |toDouble (toDouble ((a : ℚ) / b) * 100) - ((100 * a : ℕ) : ℚ) / (b : ℚ)|
      < 1 / (2 * (b : ℚ)) := by
    have e : ((100 * a : ℕ) : ℚ) / (b : ℚ) = 100 * ((a : ℚ) / b) := by push_cast; ring
    rw [e]
    refine lt_of_le_of_lt hnear ?_
    rw [div_lt_div_iff₀ (by positivity) (by positivity)]
    have : 300 * ((a : ℚ) / b) * (2 * b) = 600 * a := by field_simp; ring
    rw [this]
    norm_num
    linarith
  obtain ⟨r1, r2⟩ := jsRound_of_near (P := 100 * a) hb hlt
  refine ⟨?_, ?_⟩
  · have e : 100 * (a : ℚ) / b = ((100 * a : ℕ) : ℚ) / (b : ℚ) := by push_cast; ring
    rw [e]; exact r1
  · intro hnd
    have e : 2 * (100 * a) + b = 200 * a + b := by ring
    rw [e] at r2
    exact r2 hnd

/-! ## The structure of `getDashboardStats` -/

theorem execute_ok {α : Type} (rows : α) : execute false rows = .ok rows := rfl

theorem execute_error {α : Type} (rows : α) : execute true rows = .error "query failed" := rfl

theorem selectLocation_cases (db : Database) (email : String) :
    selectLocation db email = [] ∨ ∃ l, selectLocation db email = [l] := by
  unfold selectLocation
  cases h : db.locations.filter fun l => l.client_email = email with
  | nil => left; rfl
  | cons a as => right; exact ⟨a, by simp⟩

theorem selectCamera_cases (db : Database) (locationId : ℕ) :
    selectCamera db locationId = [] ∨ ∃ c, selectCamera db locationId = [c] := by
  unfold selectCamera
  cases h : db.camera.filter fun c => c.location_id = locationId with
  | nil => left; rfl
  | cons a as => right; exact ⟨a, by simp⟩

theorem resolution_cases (db : Database) (email : String) :
    (selectLocation db email = [] ∨
      ∃ loc, selectLocation db email = [loc] ∧ selectCamera db loc.location_id = []) ∨
    ∃ loc cam, selectLocation db email = [loc] ∧ selectCamera db loc.location_id = [cam] := by
  rcases selectLocation_cases db email with hl | ⟨loc, hl⟩
  · exact Or.inl (Or.inl hl)
  · rcases selectCamera_cases db loc.location_id with hc | ⟨cam, hc⟩
    · exact Or.inl (Or.inr ⟨loc, hl, hc⟩)
    · exact Or.inr ⟨loc, cam, hl, hc⟩

/-- The statistics computed once location and camera are resolved: the part of
`getDashboardStats` after the two lookups. -/
theorem getDashboardStats_resolved (db : Database) (f : Faults) (now pastHours : ℤ)
    (email : String) (loc : LocationRow) (cam : CameraRow)
    (hf1 : f.location = false) (hf2 : f.camera = false)
    (hloc : selectLocation db email = [loc])
    (hcam : selectCamera db loc.location_id = [cam]) :
    getDashboardStats db f now email pastHours =
      match execute f.avgStay (selectAvgStay db cam.camera_id now pastHours) with
      | .error _ => footTrafficStep db f cam.camera_id now pastHours defaultStats
      | .ok avg =>
        match execute f.infractionCount
            (selectInfractionCount db cam.camera_id now pastHours) with
        | .error _ =>
          parkingStep db f cam.camera_id cam.spots_tracked now pastHours
            (avgStayStep avg (footTrafficStep db f cam.camera_id now pastHours defaultStats))
        | .ok count =>
          infringementStep count
            (parkingStep db f cam.camera_id cam.spots_tracked now pastHours
              (avgStayStep avg
                (footTrafficStep db f cam.camera_id now pastHours defaultStats))) := by
  simp only [getDashboardStats, hf1, hf2, hloc, hcam, execute_ok]

theorem getDashboardStats_unresolved {db : Database} {f : Faults} {now pastHours : ℤ}
    {email : String}
    (h : f.location = true ∨ selectLocation db email = [] ∨
      ∃ loc, selectLocation db email = [loc] ∧
        (f.camera = true ∨ selectCamera db loc.location_id = [])) :
    getDashboardStats db f now email pastHours = defaultStats := by
  rcases h with h | h | ⟨loc, hloc, h | h⟩
  · simp only [getDashboardStats, h, execute_error]
  · cases hf : f.location <;> simp only [getDashboardStats, h, hf, execute_ok, execute_error]
  · cases hf : f.location <;>
      simp only [getDashboardStats, h, hf, hloc, execute_ok, execute_error]
  · cases hf : f.location <;> cases hf2 : f.camera <;>
      simp only [getDashboardStats, h, hf, hf2, hloc, execute_ok, execute_error]

theorem getDashboardStats_cases (db : Database) (f : Faults) (now : ℤ) (email : String)
    (pastHours : ℤ) :
    getDashboardStats db f now email pastHours = defaultStats ∨
      ∃ loc cam, f.location = false ∧ f.camera = false ∧
        selectLocation db email = [loc] ∧ selectCamera db loc.location_id = [cam] := by
  cases hf1 : f.location
  · rcases selectLocation_cases db email with hl | ⟨loc, hl⟩
    · exact Or.inl (getDashboardStats_unresolved (Or.inr (Or.inl hl)))
    · cases hf2 : f.camera
      · rcases selectCamera_cases db loc.location_id with hc | ⟨cam, hc⟩
        · exact Or.inl (getDashboardStats_unresolved (Or.inr (Or.inr ⟨loc, hl, Or.inr hc⟩)))
        · exact Or.inr ⟨loc, cam, rfl, rfl, hl, hc⟩
      · exact Or.inl (getDashboardStats_unresolved (Or.inr (Or.inr ⟨loc, hl, Or.inl hf2⟩)))
  · exact Or.inl (getDashboardStats_unresolved (Or.inl hf1))

/-! ### What each step changes -/

theorem footTrafficStep_eq (db : Database) (f : Faults) (cameraId : ℕ) (now pastHours : ℤ)
    (s : DashboardStats) :
    footTrafficStep db f cameraId now pastHours s =
      { s with footTraffic :=
          if f.footTraffic then s.footTraffic else selectFootTraffic db cameraId now pastHours } := by
  unfold footTrafficStep
  cases f.footTraffic <;> rfl

theorem parkingStep_eq (db : Database) (f : Faults) (cameraId : ℕ)
    (spotsTracked : Option String) (now pastHours : ℤ) (s : DashboardStats) :
    parkingStep db f cameraId spotsTracked now pastHours s =
      if f.spotsUsed then s
      else if 0 < totalSpotsOf spotsTracked then
        { s with
          totalSpots := totalSpotsOf spotsTracked
          parkingUtilization :=
            { used := selectSpotsUsed db cameraId now pastHours
              available :=
                (totalSpotsOf spotsTracked : ℤ) - (selectSpotsUsed db cameraId now pastHours : ℤ)
              percentage :=
                roundedPercent (selectSpotsUsed db cameraId now pastHours)
                  (totalSpotsOf spotsTracked) } }
      else { s with totalSpots := totalSpotsOf spotsTracked } := by
  unfold parkingStep
  cases f.spotsUsed
  · simp only [execute_ok, gt_iff_lt, Bool.false_eq_true, if_false]
  · simp only [execute_error, if_true]

theorem coherent_of_fresh {s : DashboardStats}
    (h1 : s.parkingUtilization = ⟨0, 0, 0⟩ ∨
      (0 < s.totalSpots ∧
        s.parkingUtilization.available = (s.totalSpots : ℤ) - (s.parkingUtilization.used : ℤ) ∧
        s.parkingUtilization.percentage =
          roundedPercent s.parkingUtilization.used s.totalSpots))
    (h2 : s.infringements = ⟨0, 0⟩) : Coherent s := by
  refine ⟨h1, ?_⟩
  rw [h2]
  simp only [roundedPercent_zero_left, ite_self]

theorem coherent_infringementStep {s : DashboardStats} (count : ℕ)
    (h1 : s.parkingUtilization = ⟨0, 0, 0⟩ ∨
      (0 < s.totalSpots ∧
        s.parkingUtilization.available = (s.totalSpots : ℤ) - (s.parkingUtilization.used : ℤ) ∧
        s.parkingUtilization.percentage =
          roundedPercent s.parkingUtilization.used s.totalSpots)) :
    Coherent (infringementStep count s) := by
  refine ⟨h1, ?_⟩
  simp only [infringementStep, gt_iff_lt]

theorem parkingStep_shape (db : Database) (f : Faults) (cameraId : ℕ)
    (spotsTracked : Option String) (now pastHours : ℤ) {s : DashboardStats}
    (h0 : s.parkingUtilization = ⟨0, 0, 0⟩) (hi : s.infringements = ⟨0, 0⟩) :
    ((parkingStep db f cameraId spotsTracked now pastHours s).parkingUtilization = ⟨0, 0, 0⟩ ∨
      (0 < (parkingStep db f cameraId spotsTracked now pastHours s).totalSpots ∧
        (parkingStep db f cameraId spotsTracked now pastHours s).parkingUtilization.available =
          ((parkingStep db f cameraId spotsTracked now pastHours s).totalSpots : ℤ) -
          ((parkingStep db f cameraId spotsTracked now pastHours s).parkingUtilization.used : ℤ) ∧
        (parkingStep db f cameraId spotsTracked now pastHours s).parkingUtilization.percentage =
          roundedPercent
            (parkingStep db f cameraId spotsTracked now pastHours s).parkingUtilization.used
            (parkingStep db f cameraId spotsTracked now pastHours s).totalSpots)) ∧
    (parkingStep db f cameraId spotsTracked now pastHours s).infringements = ⟨0, 0⟩ := by
  rw [parkingStep_eq]
  split_ifs with ha hb
  · exact ⟨Or.inl h0, hi⟩
  · exact ⟨Or.inr ⟨hb, rfl, rfl⟩, hi⟩
  · exact ⟨Or.inl h0, hi⟩

theorem getDashboardStats_coherent (db : Database) (f : Faults) (now : ℤ) (email : String)
    (pastHours : ℤ) : Coherent (getDashboardStats db f now email pastHours) := by
  rcases getDashboardStats_cases db f now email pastHours with h | ⟨loc, cam, hf1, hf2, hl, hc⟩
  · rw [h]
    exact coherent_of_fresh (Or.inl rfl) rfl
  · rw [getDashboardStats_resolved db f now pastHours email loc cam hf1 hf2 hl hc]
    have hft : ∀ s : DashboardStats, s.parkingUtilization = ⟨0, 0, 0⟩ → s.infringements = ⟨0, 0⟩ →
        (footTrafficStep db f cam.camera_id now pastHours s).parkingUtilization = ⟨0, 0, 0⟩ ∧
        (footTrafficStep db f cam.camera_id now pastHours s).infringements = ⟨0, 0⟩ := by
      intro s h1 h2
      rw [footTrafficStep_eq]
      exact ⟨h1, h2⟩
    have hav : ∀ (avg : Option ℚ) (s : DashboardStats), s.parkingUtilization = ⟨0, 0, 0⟩ →
        s.infringements = ⟨0, 0⟩ →
        (avgStayStep avg s).parkingUtilization = ⟨0, 0, 0⟩ ∧
        (avgStayStep avg s).infringements = ⟨0, 0⟩ := by
      intro avg s h1 h2
      unfold avgStayStep
      cases avg with
      | none => exact ⟨h1, h2⟩
      | some x =>
        simp only
        split_ifs
        · exact ⟨h1, h2⟩
        · exact ⟨h1, h2⟩
    obtain ⟨p0, i0⟩ := hft defaultStats rfl rfl
    cases f.avgStay
    · simp only [execute_ok]
      obtain ⟨p1, i1⟩ := hav (selectAvgStay db cam.camera_id now pastHours) _ p0 i0
      obtain ⟨p2, i2⟩ := parkingStep_shape db f cam.camera_id cam.spots_tracked now pastHours p1 i1
      cases f.infractionCount
      · simp only [execute_ok]
        exact coherent_infringementStep _ p2
      · simp only [execute_error]
        exact coherent_of_fresh p2 i2
    · simp only [execute_error]
      exact coherent_of_fresh (Or.inl p0) i0

/-! ## Exact values -/

theorem roundHalfEven_intCast (n : ℤ) : roundHalfEven (n : ℚ) = n :=
  roundHalfEven_eq_of_abs_lt (by simp)

theorem toDouble_natCast {n : ℕ} (h : n < 2 ^ 53) : toDouble (n : ℚ) = n := by
  rcases Nat.eq_zero_or_pos n with h0 | h0
  · subst h0; simpa using toDouble_zero
  · have hpos : (0 : ℚ) < n := by exact_mod_cast h0
    rw [toDouble_of_pos hpos]
    set e := Int.log 2 (n : ℚ) with he
    obtain ⟨hb1, _⟩ := binade_bounds hpos
    have hle : e ≤ 52 := by
      by_contra hc
      push_neg at hc
      have h53 : (2 : ℚ) ^ (53 : ℤ) ≤ 2 ^ e := zpow_le_zpow_right₀ (by norm_num) (by omega)
      have hN : (n : ℚ) < 2 ^ 53 := by exact_mod_cast h
      have e53 : ((2 : ℚ) ^ (53 : ℤ)) = 2 ^ 53 := by norm_num
      rw [e53] at h53
      linarith
    obtain ⟨k, hk⟩ : ∃ k : ℕ, (52 : ℤ) - e = k := ⟨(52 - e).toNat, by omega⟩
    have hdiv : (n : ℚ) / 2 ^ (e - 52) = ((n * 2 ^ k : ℕ) : ℤ) := by
      have : e - 52 = -(k : ℤ) := by omega
      rw [this, zpow_neg, zpow_natCast]
      push_cast
      field_simp
    rw [hdiv, roundHalfEven_intCast, ← hdiv]
    have hu : (2 : ℚ) ^ (e - 52) ≠ 0 := by positivity
    field_simp

theorem exactRoundedPercent_eq {a b : ℕ} (hb : 0 < b) :
    exactRoundedPercent a b = ((200 * a + b) / (2 * b) : ℕ) := by
  unfold exactRoundedPercent
  have hb' : (b : ℚ) ≠ 0 := by exact_mod_cast hb.ne'
  have e : (a : ℚ) / (b : ℚ) * 100 + 1 / 2 = ((200 * a + b : ℕ) : ℚ) / ((2 * b : ℕ) : ℚ) := by
    push_cast
    field_simp
    ring
  rw [e, Rat.floor_natCast_div_natCast]
  simp

/-- Away from the halfway points, `Math.round((a / b) * 100)` in doubles is the
rounding of the exact quotient. -/
theorem roundedPercent_eq_exact {a b : ℕ} (hb : 0 < b) (ha : a < 2 ^ 43)
    (hn : ¬ HalfwayPercent a b) : roundedPercent a b = exactRoundedPercent a b := by
  rw [exactRoundedPercent_eq hb]
  exact (roundedPercent_near hb ha).2 hn

theorem jsRound_intCast (n : ℤ) : jsRound (n : ℚ) = n := by
  unfold jsRound
  rw [Int.floor_eq_iff]
  constructor <;> norm_num

/-- A count that is its own total is 100 percent. -/
theorem roundedPercent_self {c : ℕ} (hc : 0 < c) : roundedPercent c c = 100 := by
  unfold roundedPercent
  have hc' : (c : ℚ) ≠ 0 := by exact_mod_cast hc.ne'
  have h1 : (c : ℚ) / (c : ℚ) = ((1 : ℕ) : ℚ) := by
    rw [div_self hc']; norm_num
  have h2 : (((1 : ℕ) : ℚ)) * 100 = ((100 : ℕ) : ℚ) := by norm_num
  rw [h1, toDouble_natCast (by norm_num), h2, toDouble_natCast (by norm_num)]
  exact_mod_cast jsRound_intCast 100

/-- The double product of the tie `23 / 40 * 100` falls below `57.5`. -/
theorem roundedPercent_23_40 : roundedPercent 23 40 = 57 := by
  unfold roundedPercent
  have h1 : toDouble (((23 : ℕ) : ℚ) / ((40 : ℕ) : ℚ)) = 5179139571476070 / 2 ^ 53 := by
    rw [toDouble_eq_of_bounds (-1) 5179139571476070 (by norm_num) (by norm_num) (by norm_num)
      (by norm_num [abs_lt])]
    norm_num
  have h2 : toDouble (5179139571476070 / 2 ^ 53 * 100 : ℚ) = 8092405580431359 / 2 ^ 47 := by
    rw [toDouble_eq_of_bounds 5 8092405580431359 (by norm_num) (by norm_num) (by norm_num)
      (by norm_num [abs_lt])]
    norm_num
  rw [h1, h2]
  unfold jsRound
  rw [Int.floor_eq_iff]
  constructor <;> norm_num

/-! ## Ranges of the percentage fields -/

/-- C1, as the code has it: in every result of `getDashboardStats` the
infringement rate is an integer between 0 and 100 and is 0 when
`infringements.count + parkingUtilization.used` is 0; the utilization percentage
is a non-negative integer, is 0 when `totalSpots` is 0, and is at most 100
whenever the number of occupied zones does not exceed `totalSpots`. -/
theorem rate_in_range_and_percentage_bounded_unless_overcounted (db : Database) (f : Faults)
    (now : ℤ) (email : String) (pastHours : ℤ) :
    (0 ≤ (getDashboardStats db f now email pastHours).infringements.rate ∧
      (getDashboardStats db f now email pastHours).infringements.rate ≤ 100) ∧
    ((getDashboardStats db f now email pastHours).infringements.count +
        (getDashboardStats db f now email pastHours).parkingUtilization.used = 0 →
      (getDashboardStats db f now email pastHours).infringements.rate = 0) ∧
    0 ≤ (getDashboardStats db f now email pastHours).parkingUtilization.percentage ∧
    ((getDashboardStats db f now email pastHours).totalSpots = 0 →
      (getDashboardStats db f now email pastHours).parkingUtilization.percentage = 0) ∧
    ((getDashboardStats db f now email pastHours).parkingUtilization.used ≤
        (getDashboardStats db f now email pastHours).totalSpots →
      (getDashboardStats db f now email pastHours).parkingUtilization.percentage ≤ 100) := by
  obtain ⟨hp, hr⟩ := getDashboardStats_coherent db f now email pastHours
  generalize getDashboardStats db f now email pastHours = s at hp hr
  refine ⟨?_, ?_, ?_, ?_, ?_⟩
  · rw [hr]
    split_ifs
    · exact ⟨roundedPercent_nonneg _ _, roundedPercent_le_hundred (Nat.le_add_left _ _)⟩
    · exact ⟨le_refl _, by norm_num⟩
  · intro h0
    rw [hr, if_neg (by omega)]
  · rcases hp with h | ⟨_, _, h⟩
    · rw [h]
    · rw [h]; exact roundedPercent_nonneg _ _
  · intro h0
    rcases hp with h | ⟨hpos, _, _⟩
    · rw [h]
    · omega
  · intro hle
    rcases hp with h | ⟨_, _, h⟩
    · rw [h]; norm_num
    · rw [h]; exact roundedPercent_le_hundred hle

/-- C1 fails as stated: with three occupied zones and a descriptor naming one
spot, every query succeeding, the percentage is 300. -/
theorem percentage_is_300_for_three_zones_on_one_spot :
    (getDashboardStats (sampleLot 1 (sampleCars 3 0)) noFaults sampleNow
        "ops@lot.example" 24).totalSpots = 1 ∧
    (getDashboardStats (sampleLot 1 (sampleCars 3 0)) noFaults sampleNow
        "ops@lot.example" 24).parkingUtilization.used = 3 ∧
    (getDashboardStats (sampleLot 1 (sampleCars 3 0)) noFaults sampleNow
        "ops@lot.example" 24).parkingUtilization.percentage = 300 ∧
    ¬ (getDashboardStats (sampleLot 1 (sampleCars 3 0)) noFaults sampleNow
        "ops@lot.example" 24).parkingUtilization.percentage ≤ 100 := by
  have h : (getDashboardStats (sampleLot 1 (sampleCars 3 0)) noFaults sampleNow
      "ops@lot.example" 24).parkingUtilization.percentage = 300 := by
    have e : (getDashboardStats (sampleLot 1 (sampleCars 3 0)) noFaults sampleNow
        "ops@lot.example" 24).parkingUtilization.percentage = roundedPercent 3 1 := rfl
    rw [e, roundedPercent_eq_exact (by norm_num) (by norm_num) (by decide),
      exactRoundedPercent_eq (by norm_num)]
    norm_num
  refine ⟨by decide, by decide, h, ?_⟩
  rw [h]
  norm_num

/-! ## Parking utilization -/

theorem avgStayStep_parkingUtilization (avg : Option ℚ) (s : DashboardStats) :
    (avgStayStep avg s).parkingUtilization = s.parkingUtilization := by
  unfold avgStayStep
  cases avg with
  | none => rfl
  | some x => simp only; split_ifs <;> rfl

theorem parkingUtilization_noFaults (db : Database) (now pastHours : ℤ) (email : String)
    (loc : LocationRow) (cam : CameraRow)
    (hloc : selectLocation db email = [loc])
    (hcam : selectCamera db loc.location_id = [cam]) :
    (getDashboardStats db noFaults now email pastHours).parkingUtilization =
      if 0 < totalSpotsOf cam.spots_tracked then
        { used := selectSpotsUsed db cam.camera_id now pastHours
          available :=
            (totalSpotsOf cam.spots_tracked : ℤ) -
              (selectSpotsUsed db cam.camera_id now pastHours : ℤ)
          percentage :=
            roundedPercent (selectSpotsUsed db cam.camera_id now pastHours)
              (totalSpotsOf cam.spots_tracked) }
      else ⟨0, 0, 0⟩ := by
  have hres := getDashboardStats_resolved db noFaults now pastHours email loc cam
    rfl rfl hloc hcam
  have hfa : noFaults.avgStay = false := rfl
  have hfi : noFaults.infractionCount = false := rfl
  have hfs : noFaults.spotsUsed = false := rfl
  simp only [hfa, hfi, execute_ok] at hres
  have hpu : (getDashboardStats db noFaults now email pastHours).parkingUtilization =
      (parkingStep db noFaults cam.camera_id cam.spots_tracked now pastHours
        (avgStayStep (selectAvgStay db cam.camera_id now pastHours)
          (footTrafficStep db noFaults cam.camera_id now pastHours
            defaultStats))).parkingUtilization := by
    rw [hres]; rfl
  rw [parkingStep_eq, hfs] at hpu
  simp only [Bool.false_eq_true, if_false] at hpu
  rw [hpu]
  split_ifs
  · rfl
  · show (avgStayStep _ _).parkingUtilization = _
    rw [avgStayStep_parkingUtilization, footTrafficStep_eq]
    rfl

/-- C2, as the code has it: once location and camera are resolved and no query
throws, with `spotsUsed` the number of distinct zones in the window and
`totalSpots` the number computed from the descriptor: if `totalSpots > 0` then
`used = spotsUsed`, `available = totalSpots - spotsUsed` (an integer, negative
when overcounted) and `percentage` is `Math.round` of the double product
`(spotsUsed / totalSpots) * 100`; for `spotsUsed < 2^43` this is an integer
nearest to the exact `100 * spotsUsed / totalSpots`, and it is the exact value
rounded with ties up unless the exact value lies halfway between two integers.
If `totalSpots = 0` the three fields are 0. -/
theorem parkingUtilization_of_resolved (db : Database) (now pastHours : ℤ) (email : String)
    (loc : LocationRow) (cam : CameraRow)
    (hloc : selectLocation db email = [loc])
    (hcam : selectCamera db loc.location_id = [cam]) :
    (0 < totalSpotsOf cam.spots_tracked →
      (getDashboardStats db noFaults now email pastHours).parkingUtilization.used =
          selectSpotsUsed db cam.camera_id now pastHours ∧
      (getDashboardStats db noFaults now email pastHours).parkingUtilization.available =
          (totalSpotsOf cam.spots_tracked : ℤ) - (selectSpotsUsed db cam.camera_id now pastHours : ℤ) ∧
      (getDashboardStats db noFaults now email pastHours).parkingUtilization.percentage =
          jsRound (toDouble (toDouble
            ((selectSpotsUsed db cam.camera_id now pastHours : ℚ) /
              (totalSpotsOf cam.spots_tracked : ℚ)) * 100)) ∧
      (selectSpotsUsed db cam.camera_id now pastHours < 2 ^ 43 →
        |((getDashboardStats db noFaults now email pastHours).parkingUtilization.percentage : ℚ) -
            100 * (selectSpotsUsed db cam.camera_id now pastHours : ℚ) /
              (totalSpotsOf cam.spots_tracked : ℚ)| ≤ 1 / 2 ∧
        (¬ HalfwayPercent (selectSpotsUsed db cam.camera_id now pastHours)
              (totalSpotsOf cam.spots_tracked) →
          (getDashboardStats db noFaults now email pastHours).parkingUtilization.percentage =
            exactRoundedPercent (selectSpotsUsed db cam.camera_id now pastHours)
              (totalSpotsOf cam.spots_tracked)))) ∧
    (totalSpotsOf cam.spots_tracked = 0 →
      (getDashboardStats db noFaults now email pastHours).parkingUtilization = ⟨0, 0, 0⟩) := by
  have hpu := parkingUtilization_noFaults db now pastHours email loc cam hloc hcam
  constructor
  · intro hpos
    rw [if_pos hpos] at hpu
    rw [hpu]
    refine ⟨rfl, rfl, rfl, ?_⟩
    intro hsmall
    refine ⟨(roundedPercent_near hpos hsmall).1, ?_⟩
    intro hn
    exact roundedPercent_eq_exact hpos hsmall hn
  · intro h0
    rw [if_neg (by omega)] at hpu
    exact hpu

/-- C2, the witness of the specification: three occupied zones of ten spots
give `used = 3`, `available = 7`, `percentage = 30`. -/
theorem parkingUtilization_three_of_ten :
    (getDashboardStats (sampleLot 10 (sampleCars 3 0)) noFaults sampleNow
        "ops@lot.example" 24).parkingUtilization = ⟨3, 7, 30⟩ := by
  have hloc : selectLocation (sampleLot 10 (sampleCars 3 0)) "ops@lot.example" =
      [⟨"ops@lot.example", 1⟩] := by decide
  have hcam : selectCamera (sampleLot 10 (sampleCars 3 0)) 1 =
      [⟨7, 1, some (sampleDescriptor 10)⟩] := by decide
  have ht : totalSpotsOf (some (sampleDescriptor 10)) = 10 := by decide
  have hs : selectSpotsUsed (sampleLot 10 (sampleCars 3 0)) 7 sampleNow 24 = 3 := by decide
  obtain ⟨h1, h2, _, h4⟩ :=
    (parkingUtilization_of_resolved (sampleLot 10 (sampleCars 3 0)) sampleNow 24
      "ops@lot.example" ⟨"ops@lot.example", 1⟩ ⟨7, 1, some (sampleDescriptor 10)⟩ hloc hcam).1
      (by rw [ht]; norm_num)
  have h5 := (h4 (by rw [hs]; norm_num)).2 (by rw [hs, ht]; decide)
  simp only [ht, hs] at h1 h2 h5
  rw [exactRoundedPercent_eq (by norm_num)] at h5
  generalize (getDashboardStats (sampleLot 10 (sampleCars 3 0)) noFaults sampleNow
        "ops@lot.example" 24).parkingUtilization = p at h1 h2 h5
  obtain ⟨u, a, q⟩ := p
  simp only at h1 h2 h5
  subst h1 h2 h5
  norm_num

/-- C2 fails as stated: 23 occupied zones of 40 spots give the exact value 57.5,
a tie, which rounded up is 58. The double nearest to `23 / 40` is
`5179139571476070 / 2^53`, just below `0.575`; its product with 100 rounds to the
double `8092405580431359 / 2^47 = 57.49999999999999...`, and `Math.round` of that
is 57. -/
theorem percentage_is_57_for_23_zones_of_40 :
    (getDashboardStats (sampleLot 40 (sampleCars 23 0)) noFaults sampleNow
        "ops@lot.example" 24).totalSpots = 40 ∧
    (getDashboardStats (sampleLot 40 (sampleCars 23 0)) noFaults sampleNow
        "ops@lot.example" 24).parkingUtilization.used = 23 ∧
    (getDashboardStats (sampleLot 40 (sampleCars 23 0)) noFaults sampleNow
        "ops@lot.example" 24).parkingUtilization.percentage = 57 ∧
    exactRoundedPercent 23 40 = 58 := by
  refine ⟨by decide, by decide, ?_, ?_⟩
  · have e : (getDashboardStats (sampleLot 40 (sampleCars 23 0)) noFaults sampleNow
        "ops@lot.example" 24).parkingUtilization.percentage = roundedPercent 23 40 := rfl
    rw [e, roundedPercent_23_40]
  · rw [exactRoundedPercent_eq (by norm_num)]
    norm_num

/-! ## The spot count -/

theorem nameOccurrences_cons (c : Char) (rest : List Char) :
    nameOccurrences (c :: rest) =
      nameOccurrences rest + if (c :: rest).take 4 = ['n', 'a', 'm', 'e'] then 1 else 0 := by
  unfold nameOccurrences
  rw [List.tails_cons, List.countP_cons]
  simp only [decide_eq_true_eq]

theorem countNameMatches_eq_nameOccurrences (text : List Char) :
    countNameMatches text = nameOccurrences text := by
  induction text using countNameMatches.induct with
  | case1 => rfl
  | case2 rest ih =>
    rw [countNameMatches, ih]
    rw [nameOccurrences_cons, nameOccurrences_cons, nameOccurrences_cons, nameOccurrences_cons]
    simp
  | case3 c rest hne ih =>
    rw [countNameMatches, ih, nameOccurrences_cons]
    · have : ¬ (c :: rest).take 4 = ['n', 'a', 'm', 'e'] := by
        intro h
        match rest, h with
        | r1 :: r2 :: r3 :: tl, h =>
          simp only [List.take, List.cons.injEq, and_true] at h
          obtain ⟨rfl, rfl, rfl, rfl⟩ := h
          exact hne tl rfl rfl
      rw [if_neg this]
      rfl
    · exact hne

theorem totalSpotsOf_eq_descriptorOccurrences (descriptor : Option String) :
    totalSpotsOf descriptor = descriptorOccurrences descriptor := by
  cases descriptor with
  | none => rfl
  | some s =>
    simp only [totalSpotsOf, descriptorOccurrences]
    split_ifs with h
    · subst h
      rfl
    · exact countNameMatches_eq_nameOccurrences _

theorem infringementStep_totalSpots (count : ℕ) (s : DashboardStats) :
    (infringementStep count s).totalSpots = s.totalSpots := rfl

theorem infringementStep_averageStayTime (count : ℕ) (s : DashboardStats) :
    (infringementStep count s).averageStayTime = s.averageStayTime := rfl

theorem parkingStep_averageStayTime (db : Database) (f : Faults) (cameraId : ℕ)
    (spotsTracked : Option String) (now pastHours : ℤ) (s : DashboardStats) :
    (parkingStep db f cameraId spotsTracked now pastHours s).averageStayTime =
      s.averageStayTime := by
  rw [parkingStep_eq]
  split_ifs <;> rfl

theorem parkingStep_totalSpots (db : Database) (f : Faults) (cameraId : ℕ)
    (spotsTracked : Option String) (now pastHours : ℤ) (s : DashboardStats)
    (hf : f.spotsUsed = false) :
    (parkingStep db f cameraId spotsTracked now pastHours s).totalSpots =
      totalSpotsOf spotsTracked := by
  rw [parkingStep_eq, hf]
  simp only [Bool.false_eq_true, if_false]
  split_ifs <;> rfl

/-- C3: once location and camera are resolved and the queries before the
assignment succeed, `totalSpots` is the number of occurrences of the token `name`
in the `spots_tracked` descriptor of the camera; it is 0 for an absent and for an
empty descriptor. -/
theorem totalSpots_counts_name_tokens (db : Database) (f : Faults) (now pastHours : ℤ)
    (email : String) (loc : LocationRow) (cam : CameraRow)
    (hf1 : f.location = false) (hf2 : f.camera = false) (hf3 : f.avgStay = false)
    (hf4 : f.spotsUsed = false)
    (hloc : selectLocation db email = [loc])
    (hcam : selectCamera db loc.location_id = [cam]) :
    (getDashboardStats db f now email pastHours).totalSpots =
        descriptorOccurrences cam.spots_tracked ∧
    (cam.spots_tracked = none ∨ cam.spots_tracked = some "" →
      (getDashboardStats db f now email pastHours).totalSpots = 0) := by
  have key : (getDashboardStats db f now email pastHours).totalSpots =
      totalSpotsOf cam.spots_tracked := by
    rw [getDashboardStats_resolved db f now pastHours email loc cam hf1 hf2 hloc hcam, hf3]
    simp only [execute_ok]
    cases f.infractionCount
    · simp only [execute_ok]
      rw [infringementStep_totalSpots, parkingStep_totalSpots _ _ _ _ _ _ _ hf4]
    · simp only [execute_error]
      rw [parkingStep_totalSpots _ _ _ _ _ _ _ hf4]
  refine ⟨by rw [key, totalSpotsOf_eq_descriptorOccurrences], ?_⟩
  rintro (h | h) <;> rw [key, h] <;> rfl

/-- C3 at a descriptor that contains the token three times. -/
theorem totalSpots_of_three_tokens :
    sampleDescriptor 3 = "[name:spot][name:spot][name:spot]" ∧
    (getDashboardStats (sampleLot 3 (sampleCars 2 0)) noFaults sampleNow
        "ops@lot.example" 24).totalSpots = 3 := by
  refine ⟨by decide, ?_⟩
  have h := (totalSpots_counts_name_tokens (sampleLot 3 (sampleCars 2 0)) noFaults sampleNow 24
    "ops@lot.example" ⟨"ops@lot.example", 1⟩ ⟨7, 1, some (sampleDescriptor 3)⟩
    rfl rfl rfl rfl (by decide) (by decide)).1
  rw [h]
  decide

/-! ## The infringement rate -/

/-- C4, as the code has it: in every result of `getDashboardStats` the rate is `Math.round` of the
double product `(count / (count + used)) * 100` when `count + used` is positive and
0 otherwise, where `count` and `used` are the fields `infringements.count` and
`parkingUtilization.used` of that same result. For `count < 2^43` it is an integer
nearest to the exact `100 * count / (count + used)`, and the exact value rounded
with ties up unless that value lies halfway between two integers. -/
theorem infringement_rate_from_count_and_used (db : Database) (f : Faults) (now : ℤ)
    (email : String) (pastHours : ℤ) :
    (getDashboardStats db f now email pastHours).infringements.rate =
      (if 0 < (getDashboardStats db f now email pastHours).infringements.count +
            (getDashboardStats db f now email pastHours).parkingUtilization.used then
        jsRound (toDouble (toDouble
          (((getDashboardStats db f now email pastHours).infringements.count : ℚ) /
            (((getDashboardStats db f now email pastHours).infringements.count +
              (getDashboardStats db f now email pastHours).parkingUtilization.used : ℕ) : ℚ))
          * 100))
      else 0) ∧
    (0 < (getDashboardStats db f now email pastHours).infringements.count +
          (getDashboardStats db f now email pastHours).parkingUtilization.used →
      (getDashboardStats db f now email pastHours).infringements.count < 2 ^ 43 →
      |((getDashboardStats db f now email pastHours).infringements.rate : ℚ) -
          100 * ((getDashboardStats db f now email pastHours).infringements.count : ℚ) /
            (((getDashboardStats db f now email pastHours).infringements.count +
              (getDashboardStats db f now email pastHours).parkingUtilization.used : ℕ) : ℚ)|
        ≤ 1 / 2 ∧
      (¬ HalfwayPercent (getDashboardStats db f now email pastHours).infringements.count
            ((getDashboardStats db f now email pastHours).infringements.count +
              (getDashboardStats db f now email pastHours).parkingUtilization.used) →
        (getDashboardStats db f now email pastHours).infringements.rate =
          exactRoundedPercent (getDashboardStats db f now email pastHours).infringements.count
            ((getDashboardStats db f now email pastHours).infringements.count +
              (getDashboardStats db f now email pastHours).parkingUtilization.used))) := by
  obtain ⟨-, hr⟩ := getDashboardStats_coherent db f now email pastHours
  generalize getDashboardStats db f now email pastHours = s at hr
  rw [Nat.add_comm s.parkingUtilization.used s.infringements.count] at hr
  refine ⟨hr, ?_⟩
  intro hpos hsmall
  rw [hr, if_pos hpos]
  exact ⟨(roundedPercent_near hpos hsmall).1, fun hn => roundedPercent_eq_exact hpos hsmall hn⟩

/-- C4, the witness of the specification: two infringements and eight occupied
zones give the rate 20. -/
theorem infringement_rate_two_and_eight :
    (getDashboardStats (sampleLot 10 (sampleCars 8 2)) noFaults sampleNow
        "ops@lot.example" 24).infringements.count = 2 ∧
    (getDashboardStats (sampleLot 10 (sampleCars 8 2)) noFaults sampleNow
        "ops@lot.example" 24).parkingUtilization.used = 8 ∧
    (getDashboardStats (sampleLot 10 (sampleCars 8 2)) noFaults sampleNow
        "ops@lot.example" 24).infringements.rate = 20 := by
  have hc : (getDashboardStats (sampleLot 10 (sampleCars 8 2)) noFaults sampleNow
      "ops@lot.example" 24).infringements.count = 2 := by decide
  have hu : (getDashboardStats (sampleLot 10 (sampleCars 8 2)) noFaults sampleNow
      "ops@lot.example" 24).parkingUtilization.used = 8 := by decide
  refine ⟨hc, hu, ?_⟩
  have h := (infringement_rate_from_count_and_used (sampleLot 10 (sampleCars 8 2)) noFaults
    sampleNow "ops@lot.example" 24).2
  rw [hc, hu] at h
  rw [(h (by norm_num) (by norm_num)).2 (by decide), exactRoundedPercent_eq (by norm_num)]
  norm_num

/-- C4 fails as stated: 23 infringements and 17 used spots give the exact value
`23 / 40 * 100 = 57.5`, which rounds to 58; the double product is
`57.49999999999999...` and the rate is 57. -/
theorem rate_is_57_for_23_infringements_and_17_used :
    (getDashboardStats (sampleLot 20 crowdedCars) noFaults sampleNow
        "ops@lot.example" 24).infringements.count = 23 ∧
    (getDashboardStats (sampleLot 20 crowdedCars) noFaults sampleNow
        "ops@lot.example" 24).parkingUtilization.used = 17 ∧
    (getDashboardStats (sampleLot 20 crowdedCars) noFaults sampleNow
        "ops@lot.example" 24).infringements.rate = 57 ∧
    exactRoundedPercent 23 (23 + 17) = 58 := by
  refine ⟨by decide, by decide, ?_, ?_⟩
  · have e : (getDashboardStats (sampleLot 20 crowdedCars) noFaults sampleNow
        "ops@lot.example" 24).infringements.rate = roundedPercent 23 40 := rfl
    rw [e, roundedPercent_23_40]
  · rw [exactRoundedPercent_eq (by norm_num)]
    norm_num

/-! ## Unresolved location or camera -/

/-- C5: when the location lookup yields no row, or it yields a location whose
camera lookup yields no row, `getDashboardStats` returns the record whose fields
are all zero, whatever the detection tables hold and whichever queries fail. -/
theorem default_stats_when_unresolved (db : Database) (f : Faults) (now pastHours : ℤ)
    (email : String)
    (h : selectLocation db email = [] ∨
      ∃ loc, selectLocation db email = [loc] ∧ selectCamera db loc.location_id = []) :
    getDashboardStats db f now email pastHours =
      { parkingUtilization := { used := 0, available := 0, percentage := 0 }
        averageStayTime := { cars := 0, people := 0 }
        footTraffic := 0
        infringements := { count := 0, rate := 0 }
        totalSpots := 0 } := by
  rcases h with h | ⟨loc, h1, h2⟩
  · exact getDashboardStats_unresolved (Or.inr (Or.inl h))
  · exact getDashboardStats_unresolved (Or.inr (Or.inr ⟨loc, h1, Or.inr h2⟩))

/-- C5 at a store that holds car and person detections but no location for
the e-mail address. -/
theorem default_stats_for_unknown_email :
    (sampleLot 10 (sampleCars 8 2)).car_detections.length = 8 ∧
    getDashboardStats (sampleLot 10 (sampleCars 8 2)) noFaults sampleNow
        "nobody@lot.example" 24 = defaultStats :=
  ⟨by decide,
    default_stats_when_unresolved (sampleLot 10 (sampleCars 8 2)) noFaults sampleNow 24
      "nobody@lot.example" (Or.inl (by decide))⟩

/-! ## The average stay -/

theorem roundTo2_zero : roundTo2 0 = 0 := by
  unfold roundTo2
  rw [toDouble_zero, zero_mul, toDouble_zero]
  have : jsRound 0 = 0 := by
    unfold jsRound
    rw [Int.floor_eq_iff]
    constructor <;> norm_num
  rw [this]
  simp [toDouble_zero]

theorem avgStayStep_cars (avg : Option ℚ) (s : DashboardStats) (h0 : s.averageStayTime.cars = 0) :
    (avgStayStep avg s).averageStayTime.cars =
      match avg with
      | none => 0
      | some x => roundTo2 x := by
  unfold avgStayStep
  cases avg with
  | none => exact h0
  | some x =>
    simp only
    split_ifs with hx
    · rw [h0, hx, roundTo2_zero]
    · rfl

theorem averageStayTime_of_resolved (db : Database) (f : Faults) (now pastHours : ℤ)
    (email : String) (loc : LocationRow) (cam : CameraRow)
    (hf1 : f.location = false) (hf2 : f.camera = false) (hf3 : f.avgStay = false)
    (hloc : selectLocation db email = [loc])
    (hcam : selectCamera db loc.location_id = [cam]) :
    (getDashboardStats db f now email pastHours).averageStayTime.cars =
      match selectAvgStay db cam.camera_id now pastHours with
      | none => 0
      | some x => roundTo2 x := by
  have h0 : (footTrafficStep db f cam.camera_id now pastHours
      defaultStats).averageStayTime.cars = 0 := by
    rw [footTrafficStep_eq]; rfl
  rw [getDashboardStats_resolved db f now pastHours email loc cam hf1 hf2 hloc hcam, hf3]
  simp only [execute_ok]
  cases f.infractionCount
  · simp only [execute_ok]
    rw [infringementStep_averageStayTime, parkingStep_averageStayTime, avgStayStep_cars _ _ h0]
  · simp only [execute_error]
    rw [parkingStep_averageStayTime, avgStayStep_cars _ _ h0]

/-- C6, as the code has it: once location and camera are resolved and the queries up to the
average succeed, `averageStayTime.cars` is 0 when the window holds no car record;
otherwise it is the double `k / 100` for an integer `k`, and for durations that
sum to less than `2^43` seconds `k` is an integer nearest to 100 times the mean
duration divided by 60 (the mean in minutes rounded to two decimals), namely that
value rounded with ties up unless it lies halfway between two integers. -/
theorem averageStay_cars_is_mean_minutes_rounded (db : Database) (f : Faults)
    (now pastHours : ℤ) (email : String) (loc : LocationRow) (cam : CameraRow)
    (hf1 : f.location = false) (hf2 : f.camera = false) (hf3 : f.avgStay = false)
    (hloc : selectLocation db email = [loc])
    (hcam : selectCamera db loc.location_id = [cam]) :
    (windowDurations db cam.camera_id now pastHours = [] →
      (getDashboardStats db f now email pastHours).averageStayTime.cars = 0) ∧
    (windowDurations db cam.camera_id now pastHours ≠ [] →
      ∃ k : ℤ,
        (getDashboardStats db f now email pastHours).averageStayTime.cars =
          toDouble ((k : ℚ) / 100) ∧
        ((windowDurations db cam.camera_id now pastHours).sum < 2 ^ 43 →
          |(k : ℚ) - 100 *
              ((((windowDurations db cam.camera_id now pastHours).sum : ℕ) : ℚ) /
                (((windowDurations db cam.camera_id now pastHours).length : ℕ) : ℚ) / 60)|
            ≤ 1 / 2 ∧
          (¬ HalfwayPercent (windowDurations db cam.camera_id now pastHours).sum
                (60 * (windowDurations db cam.camera_id now pastHours).length) →
            k = ⌊100 *
              ((((windowDurations db cam.camera_id now pastHours).sum : ℕ) : ℚ) /
                (((windowDurations db cam.camera_id now pastHours).length : ℕ) : ℚ) / 60)
              + 1 / 2⌋))) := by
  have key := averageStayTime_of_resolved db f now pastHours email loc cam hf1 hf2 hf3 hloc hcam
  unfold selectAvgStay at key
  simp only at key
  generalize windowDurations db cam.camera_id now pastHours = ds at key ⊢
  constructor
  · intro h
    rw [key, if_pos h]
  · intro h
    rw [if_neg h] at key
    have hlen : 0 < ds.length := List.length_pos.mpr h
    have hq : 0 < 60 * ds.length := by omega
    have hx : ((ds.sum : ℕ) : ℚ) / ((ds.length : ℕ) : ℚ) / 60 =
        ((ds.sum : ℕ) : ℚ) / ((60 * ds.length : ℕ) : ℚ) := by
      push_cast
      rw [div_div, mul_comm]
    refine ⟨roundedPercent ds.sum (60 * ds.length), ?_, ?_⟩
    · rw [key]
      simp only [roundTo2, roundedPercent, hx]
    · intro hsmall
      obtain ⟨n1, n2⟩ := roundedPercent_near hq hsmall
      refine ⟨?_, ?_⟩
      · rw [hx]
        have e : 100 * (((ds.sum : ℕ) : ℚ) / ((60 * ds.length : ℕ) : ℚ)) =
            100 * ((ds.sum : ℕ) : ℚ) / ((60 * ds.length : ℕ) : ℚ) := by ring
        rw [e]
        exact n1
      · intro hn
        rw [roundedPercent_eq_exact hq hsmall hn, hx]
        unfold exactRoundedPercent
        congr 2
        ring

/-- C6, the witness of the specification: the durations 60, 120 and 180
seconds give 2.00 minutes. -/
theorem averageStay_of_60_120_180 :
    windowDurations (sampleLot 10 (sampleCars 3 0)) 7 sampleNow 24 = [60, 120, 180] ∧
    (getDashboardStats (sampleLot 10 (sampleCars 3 0)) noFaults sampleNow
        "ops@lot.example" 24).averageStayTime.cars = 2 := by
  have hd : windowDurations (sampleLot 10 (sampleCars 3 0)) 7 sampleNow 24 =
      [60, 120, 180] := by decide
  refine ⟨hd, ?_⟩
  obtain ⟨k, hk, hnear⟩ :=
    (averageStay_cars_is_mean_minutes_rounded (sampleLot 10 (sampleCars 3 0)) noFaults
      sampleNow 24 "ops@lot.example" ⟨"ops@lot.example", 1⟩ ⟨7, 1, some (sampleDescriptor 10)⟩
      rfl rfl rfl (by decide) (by decide)).2 (by rw [hd]; decide)
  simp only [hd] at hnear
  obtain ⟨h1, -⟩ := hnear (by norm_num)
  have hk200 : k = 200 := by
    norm_num at h1
    rw [abs_le] at h1
    have a : ((199 : ℤ) : ℚ) < (k : ℚ) := by push_cast; linarith [h1.1]
    have b : (k : ℚ) < ((201 : ℤ) : ℚ) := by push_cast; linarith [h1.2]
    have a' := Int.cast_lt.mp a
    have b' := Int.cast_lt.mp b
    omega
  rw [hk, hk200]
  have : ((200 : ℤ) : ℚ) / 100 = ((2 : ℕ) : ℚ) := by norm_num
  rw [this, toDouble_natCast (by norm_num)]
  norm_num

/-- C6 fails as stated: the durations 34 and 35 seconds have the mean 34.5
seconds, which is 0.575 minutes and rounds to 0.58; the double product
`0.575 * 100` is `57.49999999999999...`, `Math.round` gives 57, and the result is
the double nearest to 0.57. -/
theorem averageStay_of_34_35_is_below_058 :
    windowDurations (sampleLot 10 shortStays) 7 sampleNow 24 = [34, 35] ∧
    ((34 + 35 : ℚ) / 2) / 60 = 575 / 1000 ∧
    ⌊100 * (((34 + 35 : ℚ) / 2) / 60) + 1 / 2⌋ = 58 ∧
    (getDashboardStats (sampleLot 10 shortStays) noFaults sampleNow
        "ops@lot.example" 24).averageStayTime.cars = toDouble (57 / 100) ∧
    (getDashboardStats (sampleLot 10 shortStays) noFaults sampleNow
        "ops@lot.example" 24).averageStayTime.cars < 571 / 1000 := by
  have hd : windowDurations (sampleLot 10 shortStays) 7 sampleNow 24 = [34, 35] := by decide
  have hc : (getDashboardStats (sampleLot 10 shortStays) noFaults sampleNow
      "ops@lot.example" 24).averageStayTime.cars = toDouble (57 / 100) := by
    rw [averageStayTime_of_resolved (sampleLot 10 shortStays) noFaults sampleNow 24
      "ops@lot.example" ⟨"ops@lot.example", 1⟩ ⟨7, 1, some (sampleDescriptor 10)⟩
      rfl rfl rfl (by decide) (by decide)]
    unfold selectAvgStay
    simp only [hd]
    have hx : (((([34, 35] : List ℕ).sum : ℕ) : ℚ) / ((([34, 35] : List ℕ).length : ℕ) : ℚ)) / 60 =
        ((23 : ℕ) : ℚ) / ((40 : ℕ) : ℚ) := by
      norm_num
    have hne : ([34, 35] : List ℕ) ≠ [] := by decide
    rw [if_neg hne]
    simp only [hx]
    have hr : roundTo2 (((23 : ℕ) : ℚ) / ((40 : ℕ) : ℚ)) =
        toDouble ((roundedPercent 23 40 : ℚ) / 100) := rfl
    rw [hr, roundedPercent_23_40]
    norm_num
  refine ⟨hd, by norm_num, ?_, hc, ?_⟩
  · rw [Int.floor_eq_iff]
    constructor <;> norm_num
  · rw [hc]
    have h := toDouble_abs_sub_le (x := 57 / 100) (by norm_num)
    rw [abs_le] at h
    have h2 : (57 / 100 : ℚ) / 2 ^ 53 < 1 / 1000 := by norm_num
    linarith [h.2]

/-! ## The infraction table -/

theorem getInfractionData_cases (db : Database) (f : Faults) (now : ℤ) (email : String)
    (pastHours : ℤ) :
    getInfractionData db f now email pastHours = [] ∨
      ∃ loc cam, selectLocation db email = [loc] ∧ selectCamera db loc.location_id = [cam] ∧
        getInfractionData db f now email pastHours =
          selectInfractionRows db cam.camera_id now pastHours := by
  unfold getInfractionData
  cases f.location
  · rcases selectLocation_cases db email with hl | ⟨loc, hl⟩
    · left; simp only [execute_ok, hl]
    · cases hf2 : f.camera
      · rcases selectCamera_cases db loc.location_id with hc | ⟨cam, hc⟩
        · left; simp only [execute_ok, hl, hc]
        · cases hf3 : f.infractionRows
          · right
            exact ⟨loc, cam, hl, hc, by simp only [execute_ok, hl, hc]⟩
          · left; simp only [execute_ok, execute_error, hl, hc]
      · left; simp only [execute_ok, execute_error, hl]
  · left; simp only [execute_error]

theorem getInfractionData_unresolved {db : Database} {f : Faults} {now pastHours : ℤ}
    {email : String}
    (h : selectLocation db email = [] ∨
      ∃ loc, selectLocation db email = [loc] ∧ selectCamera db loc.location_id = []) :
    getInfractionData db f now email pastHours = [] := by
  unfold getInfractionData
  rcases h with h | ⟨loc, h1, h2⟩
  · cases f.location <;> simp only [execute_ok, execute_error, h]
  · cases f.location <;> cases f.camera <;> simp only [execute_ok, execute_error, h1, h2]

theorem mem_openInfractions {db : Database} {cameraId : ℕ} {now pastHours : ℤ}
    {c : CarDetection} :
    c ∈ openInfractions db cameraId now pastHours ↔
      c ∈ db.car_detections ∧ c.camera_id = cameraId ∧
        now - 3600 * pastHours < c.timestamp_first_detected ∧
        c.infraction_occurred = true ∧ c.approved = false := by
  unfold openInfractions inWindow
  simp only [List.mem_filter, Bool.and_eq_true, decide_eq_true_eq, Bool.not_eq_true', gt_iff_lt]
  tauto

/-- C7: for every store, e-mail address and number of hours, the result of
`getInfractionData` has at most 50 rows, is ordered by detection time with the
latest first, and each of its rows is the projection of a car record of the
resolved camera that lies in the window of the query (first detected later than
`now - 3600 * hours`), has `infraction_occurred = true` and has
`approved = false`; the result is empty when the location or the camera cannot
be resolved. The condition is that of the infringement count: when no query
throws, the number of rows is the smaller of 50 and `infringements.count`. -/
theorem infraction_rows_bounded_sorted_and_open (db : Database) (f : Faults) (now : ℤ)
    (email : String) (pastHours : ℤ) :
    (getInfractionData db f now email pastHours).length ≤ 50 ∧
    List.Pairwise (fun a b : InfractionRow => b.detection_time ≤ a.detection_time)
      (getInfractionData db f now email pastHours) ∧
    (∀ r ∈ getInfractionData db f now email pastHours,
      ∃ loc cam c, selectLocation db email = [loc] ∧ selectCamera db loc.location_id = [cam] ∧
        c ∈ db.car_detections ∧ c.camera_id = cam.camera_id ∧
        now - 3600 * pastHours < c.timestamp_first_detected ∧
        c.infraction_occurred = true ∧ c.approved = false ∧ r = toInfractionRow c) ∧
    ((selectLocation db email = [] ∨
        ∃ loc, selectLocation db email = [loc] ∧ selectCamera db loc.location_id = []) →
      getInfractionData db f now email pastHours = []) ∧
    (getInfractionData db noFaults now email pastHours).length =
      min 50 (getDashboardStats db noFaults now email pastHours).infringements.count := by
  refine ⟨?_, ?_, ?_, fun h => getInfractionData_unresolved h, ?_⟩
  · rcases getInfractionData_cases db f now email pastHours with h | ⟨loc, cam, -, -, h⟩
    · rw [h]; simp
    · rw [h]
      unfold selectInfractionRows
      rw [List.length_map, List.length_take]
      exact Nat.min_le_left _ _
  · rcases getInfractionData_cases db f now email pastHours with h | ⟨loc, cam, -, -, h⟩
    · rw [h]; exact List.Pairwise.nil
    · rw [h]
      unfold selectInfractionRows
      rw [List.pairwise_map]
      have hs : List.Pairwise laterFirst
          ((openInfractions db cam.camera_id now pastHours).insertionSort laterFirst) :=
        List.sorted_insertionSort laterFirst _
      exact (hs.sublist (List.take_sublist _ _)).imp (fun h => h)
  · intro r hr
    rcases getInfractionData_cases db f now email pastHours with h | ⟨loc, cam, hl, hc, h⟩
    · rw [h] at hr; cases hr
    · rw [h] at hr
      unfold selectInfractionRows at hr
      obtain ⟨c, hc1, rfl⟩ := List.mem_map.mp hr
      have hc2 := List.mem_of_mem_take hc1
      have hc3 := (List.perm_insertionSort laterFirst _).mem_iff.mp hc2
      obtain ⟨m1, m2, m3, m4, m5⟩ := mem_openInfractions.mp hc3
      exact ⟨loc, cam, c, hl, hc, m1, m2, m3, m4, m5, rfl⟩
  · rcases resolution_cases db email with h | ⟨loc, cam, hl, hc⟩
    · rw [getInfractionData_unresolved h]
      have e : getDashboardStats db noFaults now email pastHours = defaultStats := by
        rcases h with h | ⟨loc, h1, h2⟩
        · exact getDashboardStats_unresolved (Or.inr (Or.inl h))
        · exact getDashboardStats_unresolved (Or.inr (Or.inr ⟨loc, h1, Or.inr h2⟩))
      rw [e]
      rfl
    · rw [getDashboardStats_resolved db noFaults now pastHours email loc cam rfl rfl hl hc]
      unfold getInfractionData
      simp only [noFaults, execute_ok, hl, hc, selectInfractionRows, infringementStep,
        selectInfractionCount, List.length_map, List.length_take, List.length_insertionSort]

/-! ## The approval action -/

/-- C10, as the code has it: for a `car_id` that passes the guard `!car_id` of the
handler (present and not 0) and an update that does not throw, approving twice
leaves the store that approving once leaves; after it every record with that
`car_id` is approved, the records with another `car_id` are as before, no record
is added or removed, and the other tables are untouched. A `car_id` that is 0 or
absent is answered with status 400 and the store is left as it is. -/
theorem approve_is_idempotent (db : Database) (carId : ℕ) (h : carId ≠ 0) :
    (approve (approve db false (some carId)).2 false (some carId)).2 =
        (approve db false (some carId)).2 ∧
    (approve db false (some carId)).1 = 200 ∧
    (∀ c ∈ (approve db false (some carId)).2.car_detections,
      c.car_id = carId → c.approved = true) ∧
    ((approve db false (some carId)).2.car_detections.filter fun c => c.car_id ≠ carId) =
        (db.car_detections.filter fun c => c.car_id ≠ carId) ∧
    ((approve db false (some carId)).2.car_detections.map fun c => c.car_id) =
        (db.car_detections.map fun c => c.car_id) ∧
    (approve db false (some carId)).2.locations = db.locations ∧
    (approve db false (some carId)).2.camera = db.camera ∧
    (approve db false (some carId)).2.ppl_detections = db.ppl_detections ∧
    approve db false (some 0) = (400, db) ∧
    approve db false none = (400, db) := by
  have e : ∀ d : Database, approve d false (some carId) = (200, updateApproved d carId) := by
    intro d
    simp only [approve, if_neg h, execute_ok]
  rw [e, e]
  simp only
  refine ⟨?_, trivial, ?_, ?_, ?_, rfl, rfl, rfl, rfl, rfl⟩
  · unfold updateApproved
    simp only [List.map_map]
    congr 1
    apply List.map_congr_left
    intro c _
    simp only [Function.comp]
    by_cases hc : c.car_id = carId
    · simp only [hc, if_true]
    · simp only [hc, if_false]
  · intro c hc hid
    unfold updateApproved at hc
    obtain ⟨c0, -, rfl⟩ := List.mem_map.mp hc
    by_cases h0 : c0.car_id = carId
    · simp only [h0, if_true]
    · simp only [h0, if_false] at hid
  · unfold updateApproved
    simp only
    induction db.car_detections with
    | nil => rfl
    | cons c cs ih =>
      by_cases hc : c.car_id = carId
      · simp only [List.map_cons, hc, if_true, List.filter_cons, ne_eq, not_true_eq_false,
          decide_False, Bool.false_eq_true, if_false] at ih ⊢
        exact ih
      · simp only [List.map_cons, hc, if_false, List.filter_cons, ne_eq, not_false_eq_true,
          decide_True, if_true] at ih ⊢
        rw [ih]
  · unfold updateApproved
    simp only [List.map_map]
    apply List.map_congr_left
    intro c _
    simp only [Function.comp]
    by_cases hc : c.car_id = carId
    · simp only [hc, if_true]
    · simp only [hc, if_false]

/-- C10 at a store with eight cars, two of them open infractions: approving
car 1 twice is approving it once, and car 1 is approved afterwards. -/
theorem approve_car_one_twice :
    (approve (approve (sampleLot 10 (sampleCars 8 2)) false (some 1)).2 false (some 1)).2 =
        (approve (sampleLot 10 (sampleCars 8 2)) false (some 1)).2 ∧
    ((approve (sampleLot 10 (sampleCars 8 2)) false (some 1)).2.car_detections.map
        fun c => c.approved) = [true, false, false, false, false, false, false, false] :=
  ⟨(approve_is_idempotent (sampleLot 10 (sampleCars 8 2)) 1 (by decide)).1, by decide⟩

/-- C10 fails as stated: a request body with `car_id = 0` supplies the field, but
`!car_id` is true for 0, so the handler answers 400 and never runs the update;
the record with `car_id = 0` is not approved afterwards. -/
theorem approve_of_car_zero_is_refused :
    (carZeroLot.car_detections.map fun c => (c.car_id, c.approved)) = [(0, false)] ∧
    (approve carZeroLot false (some 0)).1 = 400 ∧
    (approve carZeroLot false (some 0)).2 = carZeroLot ∧
    ¬ ∀ c ∈ (approve carZeroLot false (some 0)).2.car_detections,
        c.car_id = 0 → c.approved = true := by
  refine ⟨by decide, by decide, by decide, by decide⟩

/-- C7 at a store with sixty open infractions, detected one second after the
other: fifty rows are returned, the latest detection first. -/
theorem infraction_rows_of_sixty_infractions :
    (getInfractionData (sampleLot 10 (sampleCars 60 60)) noFaults sampleNow
        "ops@lot.example" 24).length = 50 ∧
    ((getInfractionData (sampleLot 10 (sampleCars 60 60)) noFaults sampleNow
        "ops@lot.example" 24).take 3).map (fun r => (r.car_id, r.detection_time - sampleNow)) =
      [(60, -541), (59, -542), (58, -543)] ∧
    List.Pairwise (fun a b : InfractionRow => b.detection_time ≤ a.detection_time)
      (getInfractionData (sampleLot 10 (sampleCars 60 60)) noFaults sampleNow
        "ops@lot.example" 24) :=
  ⟨by decide, by decide,
    (infraction_rows_bounded_sorted_and_open (sampleLot 10 (sampleCars 60 60)) noFaults sampleNow
      "ops@lot.example" 24).2.1⟩

/-! ## Failing queries -/

theorem avgStayStep_eq (avg : Option ℚ) (s : DashboardStats) :
    avgStayStep avg s =
      { s with averageStayTime :=
          { s.averageStayTime with
            cars := match avg with
              | none => s.averageStayTime.cars
              | some x => if x = 0 then s.averageStayTime.cars else roundTo2 x } } := by
  unfold avgStayStep
  cases avg with
  | none => rfl
  | some x =>
    simp only
    split_ifs <;> rfl

theorem infringements_of_spotsUsed_fault (db : Database) (now pastHours : ℤ) (email : String)
    (loc : LocationRow) (cam : CameraRow)
    (hloc : selectLocation db email = [loc])
    (hcam : selectCamera db loc.location_id = [cam]) :
    (getDashboardStats db { noFaults with spotsUsed := true } now email pastHours).infringements =
      { count := selectInfractionCount db cam.camera_id now pastHours
        rate := if 0 < selectInfractionCount db cam.camera_id now pastHours then 100 else 0 } := by
  rw [getDashboardStats_resolved db { noFaults with spotsUsed := true } now pastHours email loc cam
    rfl rfl hloc hcam]
  have hz : defaultStats.parkingUtilization.used = 0 := rfl
  simp only [noFaults, execute_ok, footTrafficStep_eq, parkingStep_eq, avgStayStep_eq,
    infringementStep, Bool.false_eq_true, if_false, if_true, gt_iff_lt, hz, zero_add]
  split_ifs with h
  · rw [roundedPercent_self h]
  · rfl

/-- C8, as the code has it: with `ok` the result of the run in which no query
throws, (1) a throwing foot-traffic query changes `footTraffic` to 0 and nothing
else; (2) a throwing infringement query changes `infringements` to its zero
default and nothing else; (3) a throwing spots-used query leaves
`parkingUtilization` and `totalSpots` at zero, keeps `footTraffic`,
`averageStayTime` and `infringements.count`, and the rate, computed with
`used = 0`, is 100 when the count is positive; (4) a throwing average-stay query keeps `footTraffic` and leaves
every other field at zero. -/
theorem effect_of_one_failing_query (db : Database) (now : ℤ) (email : String)
    (pastHours : ℤ) :
    getDashboardStats db { noFaults with footTraffic := true } now email pastHours =
      { getDashboardStats db noFaults now email pastHours with footTraffic := 0 } ∧
    getDashboardStats db { noFaults with infractionCount := true } now email pastHours =
      { getDashboardStats db noFaults now email pastHours with infringements := ⟨0, 0⟩ } ∧
    getDashboardStats db { noFaults with spotsUsed := true } now email pastHours =
      { getDashboardStats db noFaults now email pastHours with
        parkingUtilization := ⟨0, 0, 0⟩
        totalSpots := 0
        infringements :=
          { count := (getDashboardStats db noFaults now email pastHours).infringements.count
            rate :=
              if 0 < (getDashboardStats db noFaults now email pastHours).infringements.count
              then 100 else 0 } } ∧
    getDashboardStats db { noFaults with avgStay := true } now email pastHours =
      { defaultStats with
        footTraffic := (getDashboardStats db noFaults now email pastHours).footTraffic } := by
  rcases resolution_cases db email with h | ⟨loc, cam, hl, hc⟩
  · have e : ∀ f : Faults, getDashboardStats db f now email pastHours = defaultStats := by
      intro f
      rcases h with h | ⟨loc, h1, h2⟩
      · exact getDashboardStats_unresolved (Or.inr (Or.inl h))
      · exact getDashboardStats_unresolved (Or.inr (Or.inr ⟨loc, h1, Or.inr h2⟩))
    refine ⟨?_, ?_, ?_, ?_⟩ <;> rw [e, e] <;> rfl
  · have r : ∀ f : Faults, f.location = false → f.camera = false → _ :=
      fun f h1 h2 =>
        getDashboardStats_resolved db f now pastHours email loc cam h1 h2 hl hc
    rw [r noFaults rfl rfl, r { noFaults with footTraffic := true } rfl rfl,
      r { noFaults with infractionCount := true } rfl rfl,
      r { noFaults with spotsUsed := true } rfl rfl,
      r { noFaults with avgStay := true } rfl rfl]
    simp only [noFaults, execute_ok, execute_error, footTrafficStep_eq, parkingStep_eq,
      avgStayStep_eq, infringementStep, Bool.false_eq_true, if_false, if_true, gt_iff_lt]
    have hz : defaultStats.parkingUtilization.used = 0 := rfl
    simp only [hz, zero_add]
    refine ⟨?_, ?_, ?_, ?_⟩
    · split_ifs <;> rfl
    · split_ifs <;> rfl
    · split_ifs <;> first | rfl | (rw [roundedPercent_self (by assumption)]; rfl)
    · split_ifs <;> rfl

/-- C8 fails as stated. In a store with two parked cars, one of them an open
infraction, and ten spots: when only the average-stay query throws, the
parking-utilization and infringement groups stay at zero although their own
queries would succeed; when only the spots-used query throws, the infringement
rate is 100 instead of 33. -/
theorem one_failing_query_changes_other_groups :
    (getDashboardStats (sampleLot 10 (sampleCars 2 1)) noFaults sampleNow
        "ops@lot.example" 24).parkingUtilization.used = 2 ∧
    (getDashboardStats (sampleLot 10 (sampleCars 2 1)) noFaults sampleNow
        "ops@lot.example" 24).infringements.count = 1 ∧
    (getDashboardStats (sampleLot 10 (sampleCars 2 1)) { noFaults with avgStay := true }
        sampleNow "ops@lot.example" 24).parkingUtilization.used = 0 ∧
    (getDashboardStats (sampleLot 10 (sampleCars 2 1)) { noFaults with avgStay := true }
        sampleNow "ops@lot.example" 24).infringements.count = 0 ∧
    (getDashboardStats (sampleLot 10 (sampleCars 2 1)) noFaults sampleNow
        "ops@lot.example" 24).infringements.rate = 33 ∧
    (getDashboardStats (sampleLot 10 (sampleCars 2 1)) { noFaults with spotsUsed := true }
        sampleNow "ops@lot.example" 24).infringements.rate = 100 := by
  refine ⟨by decide, by decide, by decide, by decide, ?_, ?_⟩
  · have e : (getDashboardStats (sampleLot 10 (sampleCars 2 1)) noFaults sampleNow
        "ops@lot.example" 24).infringements.rate = roundedPercent 1 3 := rfl
    rw [e, roundedPercent_eq_exact (by norm_num) (by norm_num) (by decide),
      exactRoundedPercent_eq (by norm_num)]
    norm_num
  · have hl : selectLocation (sampleLot 10 (sampleCars 2 1)) "ops@lot.example" =
        [⟨"ops@lot.example", 1⟩] := by decide
    have hc : selectCamera (sampleLot 10 (sampleCars 2 1)) 1 =
        [⟨7, 1, some (sampleDescriptor 10)⟩] := by decide
    have hn : selectInfractionCount (sampleLot 10 (sampleCars 2 1)) 7 sampleNow 24 = 1 := by
      decide
    rw [infringements_of_spotsUsed_fault (sampleLot 10 (sampleCars 2 1)) sampleNow 24
      "ops@lot.example" ⟨"ops@lot.example", 1⟩ ⟨7, 1, some (sampleDescriptor 10)⟩ hl hc, hn]
    rfl

/-! ## The detection window -/

theorem mem_carsInWindow {db : Database} {cameraId : ℕ} {now pastHours : ℤ}
    {c : CarDetection} :
    c ∈ carsInWindow db cameraId now pastHours ↔
      c ∈ db.car_detections ∧ c.camera_id = cameraId ∧
        now - 3600 * pastHours < c.timestamp_first_detected := by
  unfold carsInWindow inWindow
  simp only [List.mem_filter, Bool.and_eq_true, decide_eq_true_eq, gt_iff_lt]

theorem openInfractions_eq_filter (db : Database) (cameraId : ℕ) (now pastHours : ℤ) :
    openInfractions db cameraId now pastHours =
      (carsInWindow db cameraId now pastHours).filter
        fun c => c.infraction_occurred && !c.approved := by
  unfold openInfractions carsInWindow
  rw [List.filter_filter]
  congr 1
  funext c
  cases c.infraction_occurred <;> cases c.approved <;> simp

/-- C9, as the code has it: a car record of the resolved camera is among the
records the metrics are computed from exactly when its first-detected timestamp
`t` satisfies `now - hours * 3600 < t`; the bound is strict and there is no upper
bound. With every query succeeding, the infringement count, the number of used
spots, the average stay and the infraction table are computed from these
records. -/
theorem window_is_open_below_and_unbounded_above (db : Database) (now pastHours : ℤ)
    (email : String) (loc : LocationRow) (cam : CameraRow)
    (hloc : selectLocation db email = [loc])
    (hcam : selectCamera db loc.location_id = [cam]) :
    (∀ c, c ∈ carsInWindow db cam.camera_id now pastHours ↔
      c ∈ db.car_detections ∧ c.camera_id = cam.camera_id ∧
        now - pastHours * 3600 < c.timestamp_first_detected) ∧
    (getDashboardStats db noFaults now email pastHours).infringements.count =
      ((carsInWindow db cam.camera_id now pastHours).filter
        fun c => c.infraction_occurred && !c.approved).length ∧
    (0 < totalSpotsOf cam.spots_tracked →
      (getDashboardStats db noFaults now email pastHours).parkingUtilization.used =
        (((carsInWindow db cam.camera_id now pastHours).map fun c => c.zone_).dedup).length) ∧
    (getDashboardStats db noFaults now email pastHours).averageStayTime.cars =
      (if ((carsInWindow db cam.camera_id now pastHours).map fun c => c.duration) = [] then 0
      else roundTo2
        (((((carsInWindow db cam.camera_id now pastHours).map fun c => c.duration).sum : ℕ) : ℚ) /
          ((((carsInWindow db cam.camera_id now pastHours).map
            fun c => c.duration).length : ℕ) : ℚ) / 60)) ∧
    getInfractionData db noFaults now email pastHours =
      (((((carsInWindow db cam.camera_id now pastHours).filter
          fun c => c.infraction_occurred && !c.approved).insertionSort laterFirst).take 50).map
        toInfractionRow) := by
  refine ⟨?_, ?_, ?_, ?_, ?_⟩
  · intro c
    rw [mem_carsInWindow, mul_comm pastHours 3600]
  · rw [getDashboardStats_resolved db noFaults now pastHours email loc cam rfl rfl hloc hcam]
    simp only [noFaults, execute_ok, infringementStep, selectInfractionCount,
      openInfractions_eq_filter]
  · intro hpos
    rw [parkingUtilization_noFaults db now pastHours email loc cam hloc hcam, if_pos hpos]
    rfl
  · rw [averageStayTime_of_resolved db noFaults now pastHours email loc cam rfl rfl rfl hloc hcam]
    unfold selectAvgStay windowDurations
    simp only
    split_ifs <;> rfl
  · unfold getInfractionData
    simp only [noFaults, execute_ok, hloc, hcam, selectInfractionRows, openInfractions_eq_filter]

/-- C9 fails as stated. Of two open infractions of the camera, queried with a
window of one hour, the record first detected exactly at `now - 3600` is left out
and the record first detected at `now + 60` is included. -/
theorem boundary_record_excluded_and_future_record_included :
    (boundaryCars.map fun c => (c.car_id, c.timestamp_first_detected - sampleNow)) =
      [(1, -3600), (2, 60)] ∧
    ((getInfractionData (sampleLot 10 boundaryCars) noFaults sampleNow "ops@lot.example" 1).map
      fun r => r.car_id) = [2] ∧
    (getDashboardStats (sampleLot 10 boundaryCars) noFaults sampleNow
        "ops@lot.example" 1).infringements.count = 1 ∧
    (getDashboardStats (sampleLot 10 boundaryCars) noFaults sampleNow
        "ops@lot.example" 1).parkingUtilization.used = 1 ∧
    ((carsInWindow (sampleLot 10 boundaryCars) 7 sampleNow 1).map fun c => c.car_id) = [2] := by
  refine ⟨by decide, by decide, by decide, by decide, by decide⟩

/-- C9 at the store with the two boundary records and a window of one hour:
the records the metrics are computed from are those with
`sampleNow - 3600 < t`, and the infringement count is their number of open
infractions, here 1. -/
theorem window_of_boundary_lot :
    (∀ c, c ∈ carsInWindow (sampleLot 10 boundaryCars) 7 sampleNow 1 ↔
      c ∈ boundaryCars ∧ c.camera_id = 7 ∧
        sampleNow - 1 * 3600 < c.timestamp_first_detected) ∧
    (getDashboardStats (sampleLot 10 boundaryCars) noFaults sampleNow
        "ops@lot.example" 1).infringements.count = 1 := by
  have h := window_is_open_below_and_unbounded_above (sampleLot 10 boundaryCars) sampleNow 1
    "ops@lot.example" ⟨"ops@lot.example", 1⟩ ⟨7, 1, some (sampleDescriptor 10)⟩
    (by decide) (by decide)
  refine ⟨h.1, ?_⟩
  rw [h.2.1]
  decide

end Dashboard
